import Mathlib

/-!
Verification of the relation-aware query rewriting and cascading persistence
engine of the `rapid` repository (`packages/rapid-core/src/dataAccess/entityManager.ts`).

The TypeScript source is shallowly embedded: dynamic JSON-like values become the
inductive `Value`, entities/rows become association lists, the model schema
becomes `RpdDataModel`, filter trees become `EntityFilter`, and the stateful
storage layer (data accessors, link tables, emitted events) becomes an explicit
state-passing monad `M` over `SState` with an operation log.
-/

/-- Dynamic (JSON-like) runtime value, as manipulated by the TypeScript engine.
`vNull` collapses JavaScript `null` and `undefined` stored in a present key. -/
inductive Value where
  | vNull : Value
  | vNum : Nat → Value
  | vStr : String → Value
  | vBool : Bool → Value
  | vArr : List Value → Value
  | vObj : List (String × Value) → Value

mutual

/-- Decidable equality of dynamic values (the derivation does not handle the
nested lists, so it is written out). -/
def Value.decEq : (a b : Value) → Decidable (a = b)
  | .vNull, .vNull => isTrue rfl
  | .vNull, .vNum _ => isFalse (fun h => Value.noConfusion h)
  | .vNull, .vStr _ => isFalse (fun h => Value.noConfusion h)
  | .vNull, .vBool _ => isFalse (fun h => Value.noConfusion h)
  | .vNull, .vArr _ => isFalse (fun h => Value.noConfusion h)
  | .vNull, .vObj _ => isFalse (fun h => Value.noConfusion h)
  | .vNum _, .vNull => isFalse (fun h => Value.noConfusion h)
  | .vNum x, .vNum y =>
    if h : x = y then isTrue (by rw [h])
    else isFalse (fun c => by cases c; exact h rfl)
  | .vNum _, .vStr _ => isFalse (fun h => Value.noConfusion h)
  | .vNum _, .vBool _ => isFalse (fun h => Value.noConfusion h)
  | .vNum _, .vArr _ => isFalse (fun h => Value.noConfusion h)
  | .vNum _, .vObj _ => isFalse (fun h => Value.noConfusion h)
  | .vStr _, .vNull => isFalse (fun h => Value.noConfusion h)
  | .vStr _, .vNum _ => isFalse (fun h => Value.noConfusion h)
  | .vStr x, .vStr y =>
    if h : x = y then isTrue (by rw [h])
    else isFalse (fun c => by cases c; exact h rfl)
  | .vStr _, .vBool _ => isFalse (fun h => Value.noConfusion h)
  | .vStr _, .vArr _ => isFalse (fun h => Value.noConfusion h)
  | .vStr _, .vObj _ => isFalse (fun h => Value.noConfusion h)
  | .vBool _, .vNull => isFalse (fun h => Value.noConfusion h)
  | .vBool _, .vNum _ => isFalse (fun h => Value.noConfusion h)
  | .vBool _, .vStr _ => isFalse (fun h => Value.noConfusion h)
  | .vBool x, .vBool y =>
    if h : x = y then isTrue (by rw [h])
    else isFalse (fun c => by cases c; exact h rfl)
  | .vBool _, .vArr _ => isFalse (fun h => Value.noConfusion h)
  | .vBool _, .vObj _ => isFalse (fun h => Value.noConfusion h)
  | .vArr _, .vNull => isFalse (fun h => Value.noConfusion h)
  | .vArr _, .vNum _ => isFalse (fun h => Value.noConfusion h)
  | .vArr _, .vStr _ => isFalse (fun h => Value.noConfusion h)
  | .vArr _, .vBool _ => isFalse (fun h => Value.noConfusion h)
  | .vArr x, .vArr y =>
    match Value.decEqList x y with
    | isTrue h => isTrue (by rw [h])
    | isFalse h => isFalse (fun c => by cases c; exact h rfl)
  | .vArr _, .vObj _ => isFalse (fun h => Value.noConfusion h)
  | .vObj _, .vNull => isFalse (fun h => Value.noConfusion h)
  | .vObj _, .vNum _ => isFalse (fun h => Value.noConfusion h)
  | .vObj _, .vStr _ => isFalse (fun h => Value.noConfusion h)
  | .vObj _, .vBool _ => isFalse (fun h => Value.noConfusion h)
  | .vObj _, .vArr _ => isFalse (fun h => Value.noConfusion h)
  | .vObj x, .vObj y =>
    match Value.decEqFields x y with
    | isTrue h => isTrue (by rw [h])
    | isFalse h => isFalse (fun c => by cases c; exact h rfl)

/-- Decidable equality of value lists. -/
def Value.decEqList : (a b : List Value) → Decidable (a = b)
  | [], [] => isTrue rfl
  | [], _ :: _ => isFalse (fun h => List.noConfusion h)
  | _ :: _, [] => isFalse (fun h => List.noConfusion h)
  | x :: xs, y :: ys =>
    match Value.decEq x y with
    | isFalse h => isFalse (fun c => by cases c; exact h rfl)
    | isTrue hx =>
      match Value.decEqList xs ys with
      | isFalse h => isFalse (fun c => by cases c; exact h rfl)
      | isTrue ht => isTrue (by rw [hx, ht])

/-- Decidable equality of key/value field lists. -/
def Value.decEqFields : (a b : List (String × Value)) → Decidable (a = b)
  | [], [] => isTrue rfl
  | [], _ :: _ => isFalse (fun h => List.noConfusion h)
  | _ :: _, [] => isFalse (fun h => List.noConfusion h)
  | (k, v) :: xs, (k', v') :: ys =>
    if hk : k = k' then
      match Value.decEq v v' with
      | isFalse h => isFalse (fun c => by cases c; exact h rfl)
      | isTrue hv =>
        match Value.decEqFields xs ys with
        | isFalse h => isFalse (fun c => by cases c; exact h rfl)
        | isTrue ht => isTrue (by rw [hk, hv, ht])
    else isFalse (fun c => by cases c; exact hk rfl)

end

instance : DecidableEq Value := Value.decEq

/-- An entity or database row: an ordered key/value record (JavaScript object). -/
@[reducible] def Row : Type := List (String × Value)

instance : DecidableEq Row := by
  unfold Row
  infer_instance

instance : Append Row := by
  unfold Row
  infer_instance

/-- Key lookup on a record; `none` means the key is absent (`undefined` read). -/
def Row.get (r : Row) (k : String) : Option Value :=
  match r with
  | [] => none
  | (k', v) :: rest => if k' = k then some v else Row.get rest k

/-- JavaScript property assignment `r[k] = v`: overwrite in place if the key
exists, otherwise append the key at the end. -/
def Row.set (r : Row) (k : String) (v : Value) : Row :=
  match r with
  | [] => [(k, v)]
  | (k', v') :: rest => if k' = k then (k', v) :: rest else (k', v') :: Row.set rest k v

/-- Merge `partial` into `r` key by key (JavaScript `Object.assign`-style). -/
def Row.merge (r : Row) (p : Row) : Row :=
  match p with
  | [] => r
  | (k, v) :: rest => Row.merge (Row.set r k v) rest

/-- lodash `isObject`: true for objects and arrays. -/
def Value.isObject : Value → Bool
  | .vObj _ => true
  | .vArr _ => true
  | _ => false

/-- JavaScript truthiness of a value. -/
def Value.truthy : Value → Bool
  | .vNull => false
  | .vNum n => n != 0
  | .vStr s => s != ""
  | .vBool b => b
  | .vArr _ => true
  | .vObj _ => true

/-- Truthiness of a possibly-absent value (`undefined` is falsy). -/
def truthyOpt : Option Value → Bool
  | none => false
  | some v => v.truthy

/-- The object fields of a value, when it is an object (`vObj`). -/
def Value.objFields : Value → Row
  | .vObj fs => fs
  | _ => []

/-- `isNullOrUndefined` from `~/utilities/typeUtility` applied to a read that may
miss the key: absent keys and `null` values both count. -/
def isNullOrUndefinedOpt : Option Value → Bool
  | none => true
  | some .vNull => true
  | some _ => false

/-- A property of a data model (`RpdDataModelProperty` in `~/types`): optional
relation metadata selecting one of the three storage strategies. -/
structure RpdDataModelProperty where
  code : String
  columnName : Option String := none
  relation : Option String := none
  targetSingularCode : Option String := none
  targetIdColumnName : Option String := none
  selfIdColumnName : Option String := none
  linkTableName : Option String := none
deriving DecidableEq, Repr

/-- A data model (`RpdDataModel` in `~/types`). The `namespace` field of the
source is spelled `nspace` because `namespace` is a Lean keyword. -/
structure RpdDataModel where
  nspace : String
  singularCode : String
  pluralCode : String
  properties : List RpdDataModelProperty
deriving DecidableEq, Repr

/-- Modelled from the spec: `isRelationProperty` (from `~/utilities/rapidUtility`,
not among the provided sources). Per spec section 3, a property is
relation-valued exactly when its `relation` metadata ("one" or "many") is set. -/
def isRelationProperty (p : RpdDataModelProperty) : Bool :=
  p.relation.isSome

/-- Leaf filter operators understood by the relation-unaware Data Accessor.
`other` stands for the remaining scalar operators (`lt`, `contains`, ...) whose
storage semantics the claims do not depend on. -/
inductive LeafOperator where
  | eq
  | ne
  | opIn
  | opNotIn
  | other : String → LeafOperator
deriving DecidableEq, Repr

/-- The boolean combinators `and` / `or`. -/
inductive LogicalOperator where
  | opAnd
  | opOr
deriving DecidableEq, Repr

/-- The relational operators `exists` / `notExists`. -/
inductive ExistenceOperator where
  | opExists
  | opNotExists
deriving DecidableEq, Repr

/-- A filter node (`EntityFilterOptions` in `~/types`): a leaf predicate, a
boolean combination, or an existence predicate over a relation property.
`field` is `Option String` because the source type leaves it optional. -/
inductive EntityFilter where
  | leaf (field : Option String) (operator : LeafOperator) (value : Value)
  | logical (operator : LogicalOperator) (filters : List EntityFilter)
  | existence (operator : ExistenceOperator) (field : Option String) (filters : List EntityFilter)

mutual

/-- Decidable equality of filter nodes (written out because of the nested lists). -/
def EntityFilter.decEq : (a b : EntityFilter) → Decidable (a = b)
  | .leaf f op v, .leaf f' op' v' =>
    if h1 : f = f' then
      if h2 : op = op' then
        if h3 : v = v' then isTrue (by rw [h1, h2, h3])
        else isFalse (fun c => by cases c; exact h3 rfl)
      else isFalse (fun c => by cases c; exact h2 rfl)
    else isFalse (fun c => by cases c; exact h1 rfl)
  | .leaf _ _ _, .logical _ _ => isFalse (fun h => EntityFilter.noConfusion h)
  | .leaf _ _ _, .existence _ _ _ => isFalse (fun h => EntityFilter.noConfusion h)
  | .logical _ _, .leaf _ _ _ => isFalse (fun h => EntityFilter.noConfusion h)
  | .logical op fs, .logical op' fs' =>
    if h1 : op = op' then
      match EntityFilter.decEqList fs fs' with
      | isTrue h2 => isTrue (by rw [h1, h2])
      | isFalse h => isFalse (fun c => by cases c; exact h rfl)
    else isFalse (fun c => by cases c; exact h1 rfl)
  | .logical _ _, .existence _ _ _ => isFalse (fun h => EntityFilter.noConfusion h)
  | .existence _ _ _, .leaf _ _ _ => isFalse (fun h => EntityFilter.noConfusion h)
  | .existence _ _ _, .logical _ _ => isFalse (fun h => EntityFilter.noConfusion h)
  | .existence op f fs, .existence op' f' fs' =>
    if h1 : op = op' then
      if h2 : f = f' then
        match EntityFilter.decEqList fs fs' with
        | isTrue h3 => isTrue (by rw [h1, h2, h3])
        | isFalse h => isFalse (fun c => by cases c; exact h rfl)
      else isFalse (fun c => by cases c; exact h2 rfl)
    else isFalse (fun c => by cases c; exact h1 rfl)

/-- Decidable equality of filter lists. -/
def EntityFilter.decEqList : (a b : List EntityFilter) → Decidable (a = b)
  | [], [] => isTrue rfl
  | [], _ :: _ => isFalse (fun h => List.noConfusion h)
  | _ :: _, [] => isFalse (fun h => List.noConfusion h)
  | x :: xs, y :: ys =>
    match EntityFilter.decEq x y with
    | isFalse h => isFalse (fun c => by cases c; exact h rfl)
    | isTrue hx =>
      match EntityFilter.decEqList xs ys with
      | isFalse h => isFalse (fun c => by cases c; exact h rfl)
      | isTrue ht => isTrue (by rw [hx, ht])

end

instance : DecidableEq EntityFilter := EntityFilter.decEq

/-- The database contents visible to the engine: per-collection rows (keyed by
the model's `singularCode`) and per-link-table rows (keyed by table name). -/
structure Db where
  collections : List (String × List Row)
  links : List (String × List Row)
deriving DecidableEq

/-- Rows of a collection; an unknown collection is empty. -/
def Db.collRows (db : Db) (code : String) : List Row :=
  match db.collections.lookup code with
  | some rows => rows
  | none => []

/-- Rows of a link table; an unknown table is empty. -/
def Db.linkRows (db : Db) (table : String) : List Row :=
  match db.links.lookup table with
  | some rows => rows
  | none => []

/-- SQL-style evaluation of a leaf predicate on a row: a NULL (or absent)
column value matches nothing, `v IN list` requires an array value, and
`NOT IN` is additionally false when the array contains NULL (three-valued
SQL semantics). `other` operators are not needed by the claims and are
modelled as non-matching. -/
def matchLeaf (row : Row) (field : Option String) (op : LeafOperator) (v : Value) : Bool :=
  match field with
  | none => false
  | some f =>
    let w := (row.get f).getD .vNull
    match op with
    | .eq => w != .vNull && w == v
    | .ne => w != .vNull && v != .vNull && w != v
    | .opIn =>
      match v with
      | .vArr items => w != .vNull && items.contains w
      | _ => false
    | .opNotIn =>
      match v with
      | .vArr items => w != .vNull && !items.contains w && !items.contains .vNull
      | _ => false
    | .other _ => false

mutual

/-- Whether a row satisfies one filter node, as the Data Accessor evaluates it.
Existence nodes are meaningless to the relation-unaware accessor and are
modelled as non-matching. -/
def matchFilter (row : Row) : EntityFilter → Bool
  | .leaf f op v => matchLeaf row f op v
  | .logical .opAnd fs => matchAllFilters row fs
  | .logical .opOr fs => matchAnyFilter row fs
  | .existence _ _ _ => false

/-- Conjunction of a filter list (a filter list given to the accessor is
implicitly conjunctive). -/
def matchAllFilters (row : Row) : List EntityFilter → Bool
  | [] => true
  | f :: rest => matchFilter row f && matchAllFilters row rest

/-- Disjunction of a filter list (children of an `or` node). -/
def matchAnyFilter (row : Row) : List EntityFilter → Bool
  | [] => false
  | f :: rest => matchFilter row f || matchAnyFilter row rest

end

/-- `dataAccessor.find` restricted to its filtering behavior: the rows of the
collection satisfying all filters, in storage order. Projection, ordering and
pagination do not change which rows are selected and are not modelled. -/
def Db.findRows (db : Db) (code : Option String) (filters : List EntityFilter) : List Row :=
  match code with
  | none => []
  | some c => (db.collRows c).filter (fun r => matchAllFilters r filters)

/-- Read of a row's `id` column as the source does (`entity["id"]`), with an
absent key collapsing to NULL. -/
def rowId (r : Row) : Value :=
  (r.get "id").getD .vNull

/-- The general subquery path for an `exists`/`notExists` filter on a
one-relation property (entityManager.ts lines 265-277): query the target
collection with the nested filters, collect the matching ids, and rewrite to a
containment predicate on the property's `targetIdColumnName`. -/
def oneRelationGeneralReplacement (db : Db) (p : RpdDataModelProperty)
    (op : ExistenceOperator) (nested : List EntityFilter) : EntityFilter :=
  let entities := db.findRows p.targetSingularCode nested
  let entityIds := entities.map rowId
  .leaf p.targetIdColumnName
    (if op = .opExists then .opIn else .opNotIn)
    (.vArr entityIds)

mutual

/-- One pass of `replaceFiltersWithFiltersOperator` over a single filter node
(entityManager.ts lines 204-339): each input node produces exactly one output
node. -/
def replaceOneFilter (db : Db) (model : RpdDataModel) :
    EntityFilter → Except String EntityFilter
  | .logical op fs => do
    let replaced ← replaceFilterList db model fs
    pure (.logical op replaced)
  | .leaf f op v => pure (.leaf f op v)
  | .existence op fieldName nested =>
    match model.properties.find? (fun p => some p.code = fieldName) with
    | none => .error "Invalid filters. Property was not found in model"
    | some relationProperty =>
      if !isRelationProperty relationProperty then
        .error "Invalid filters. Existence operator is only allowed on a relation property"
      else if nested.isEmpty then
        .error "Invalid filters. Nested filters must be provided with an existence operator"
      else if relationProperty.relation = some "one" then
        -- Optimize when filtering by id of the related entity
        match nested with
        | [.leaf (some "id") .eq v] =>
          pure (.leaf relationProperty.targetIdColumnName
            (if op = .opExists then .eq else .ne) v)
        | [.leaf (some "id") .opIn v] =>
          pure (.leaf relationProperty.targetIdColumnName
            (if op = .opExists then .opIn else .opNotIn) v)
        | _ => pure (oneRelationGeneralReplacement db relationProperty op nested)
      else if relationProperty.linkTableName = none then
        -- many relation without link table
        match relationProperty.selfIdColumnName with
        | none => .error "Invalid filters. selfIdColumnName of property was not configured"
        | some selfIdCol =>
          let targetEntities := db.findRows relationProperty.targetSingularCode nested
          let selfEntityIds := targetEntities.map (fun e => (Row.get e selfIdCol).getD .vNull)
          pure (.leaf (some "id")
            (if op = .opExists then .opIn else .opNotIn)
            (.vArr selfEntityIds))
      else
        -- many relation with link table
        match relationProperty.selfIdColumnName with
        | none => .error "Invalid filters. selfIdColumnName of property was not configured"
        | some selfIdCol =>
          match relationProperty.targetIdColumnName with
          | none => .error "Invalid filters. targetIdColumnName of property was not configured"
          | some targetIdCol =>
            let targetEntities := db.findRows relationProperty.targetSingularCode nested
            let targetEntityIds := targetEntities.map rowId
            let links := (db.linkRows (relationProperty.linkTableName.getD "")).filter
              (fun l =>
                let w := (Row.get l targetIdCol).getD .vNull
                w != .vNull && targetEntityIds.contains w)
            let selfEntityIds := links.map (fun l => (Row.get l selfIdCol).getD .vNull)
            pure (.leaf (some "id")
              (if op = .opExists then .opIn else .opNotIn)
              (.vArr selfEntityIds))

/-- `replaceFiltersWithFiltersOperator` folded over a filter list. -/
def replaceFilterList (db : Db) (model : RpdDataModel) :
    List EntityFilter → Except String (List EntityFilter)
  | [] => pure []
  | f :: rest => do
    let f' ← replaceOneFilter db model f
    let rest' ← replaceFilterList db model rest
    pure (f' :: rest')

end

/-- `replaceFiltersWithFiltersOperator` (entityManager.ts lines 194-342): an
absent or empty filter list rewrites to the empty list. -/
def replaceFiltersWithFiltersOperator (db : Db) (model : RpdDataModel)
    (filters : Option (List EntityFilter)) : Except String (List EntityFilter) :=
  match filters with
  | none => pure []
  | some fs => replaceFilterList db model fs

mutual

/-- No `exists`/`notExists` node occurs anywhere in the filter tree. -/
def noExistenceNodes : EntityFilter → Bool
  | .leaf _ _ _ => true
  | .logical _ fs => noExistenceNodesList fs
  | .existence _ _ _ => false

/-- No `exists`/`notExists` node occurs anywhere in a filter list. -/
def noExistenceNodesList : List EntityFilter → Bool
  | [] => true
  | f :: rest => noExistenceNodes f && noExistenceNodesList rest

end

/-- A domain event emitted through `server.emitEvent`. -/
structure Event where
  name : String
  payload : Row
deriving DecidableEq

/-- One storage operation issued by the engine, recorded in the operation log.
`findOp` and `linkQueryOp` are reads; the rest are writes. -/
inductive StorageOp where
  | findOp (collection : String)
  | linkQueryOp (table : String)
  | createOp (collection : String) (row : Row)
  | updateOp (collection : String) (id : Value) (row : Row)
  | deleteOp (collection : String) (id : Value)
  | linkInsertOp (table : String) (selfCol targetCol : String) (selfId targetId : Value)
  | linkDeleteAllOp (table : String) (selfCol : String) (selfId : Value)
  | linkDeletePairOp (table : String) (selfCol targetCol : String) (selfId targetId : Value)
deriving DecidableEq

/-- Whether a storage operation writes (as opposed to only reading). -/
def StorageOp.isWrite : StorageOp → Bool
  | .findOp _ => false
  | .linkQueryOp _ => false
  | _ => true

/-- The full server-side state threaded through the engine: database contents,
the id sequence of the storage backend, the events emitted so far, and the log
of storage operations issued so far. -/
structure SState where
  db : Db
  nextId : Nat
  events : List Event
  ops : List StorageOp
deriving DecidableEq

/-- The engine's effect monad: explicit state passing plus failure. A failed
computation keeps the state reached so far (storage side effects of a partially
failed cascade are not rolled back, spec section 5). -/
def M (α : Type) : Type := SState → Except String α × SState

def M.pure (a : α) : M α := fun s => (Except.ok a, s)

def M.bind (x : M α) (f : α → M β) : M β := fun s =>
  match x s with
  | (Except.ok a, s') => f a s'
  | (Except.error e, s') => (Except.error e, s')

instance : Monad M where
  pure := M.pure
  bind := M.bind

def M.throw (e : String) : M α := fun s => (Except.error e, s)

def M.ofExcept (x : Except String α) : M α := fun s => (x, s)

/-- Replace-or-append update of an association list (used for collections and
link tables of the database state). -/
def updateAssoc {α : Type} (l : List (String × α)) (k : String) (v : α) : List (String × α) :=
  match l with
  | [] => [(k, v)]
  | (k', v') :: rest => if k' = k then (k, v) :: rest else (k', v') :: updateAssoc rest k v

/-- SQL equality `col = $n`: NULL (or an absent column) on either side matches
nothing. -/
def sqlEq (w : Option Value) (v : Value) : Bool :=
  let x := w.getD .vNull
  x != Value.vNull && v != Value.vNull && x == v

/-- `dataAccessor.find` (external contract, spec section 6): the rows of the
collection satisfying the filters, with the read logged. -/
def daFind (code : String) (filters : List EntityFilter) : M (List Row) := fun s =>
  (Except.ok ((s.db.collRows code).filter (fun r => matchAllFilters r filters)),
   { s with ops := s.ops ++ [StorageOp.findOp code] })

/-- `dataAccessor.findById` (external contract): the first row whose id equals
the argument, or nothing. -/
def daFindById (code : String) (i : Value) : M (Option Row) := fun s =>
  (Except.ok ((s.db.collRows code).find? (fun r => rowId r == i)),
   { s with ops := s.ops ++ [StorageOp.findOp code] })

/-- `dataAccessor.create` (external contract): persists the row, which yields
the entity's freshly assigned id (spec section 4.3 step 3). -/
def daCreate (code : String) (row : Row) : M Row := fun s =>
  let newRow := Row.set row "id" (Value.vNum s.nextId)
  (Except.ok newRow,
   { s with
     db := { s.db with
             collections := updateAssoc s.db.collections code (s.db.collRows code ++ [newRow]) },
     nextId := s.nextId + 1,
     ops := s.ops ++ [StorageOp.createOp code row] })

/-- `dataAccessor.updateById` (external contract): merges the partial row into
the row with the given id and returns the updated row. -/
def daUpdateById (code : String) (i : Value) (p : Row) : M Row := fun s =>
  let rows := s.db.collRows code
  let result := match rows.find? (fun r => rowId r == i) with
    | some r => Row.merge r p
    | none => p
  (Except.ok result,
   { s with
     db := { s.db with
             collections := updateAssoc s.db.collections code
               (rows.map (fun r => if rowId r == i then Row.merge r p else r)) },
     ops := s.ops ++ [StorageOp.updateOp code i p] })

/-- `dataAccessor.deleteById` (external contract). -/
def daDeleteById (code : String) (i : Value) : M Unit := fun s =>
  (Except.ok (),
   { s with
     db := { s.db with
             collections := updateAssoc s.db.collections code
               ((s.db.collRows code).filter (fun r => rowId r != i)) },
     ops := s.ops ++ [StorageOp.deleteOp code i] })

/-- `server.emitEvent` (external contract). -/
def emitEvent (name : String) (payload : Row) : M Unit := fun s =>
  (Except.ok (), { s with events := s.events ++ [Event.mk name payload] })

/-- `server.queryDatabaseObject` running
`SELECT * FROM linkTable WHERE col = ANY($1::int[])` (used with the self-id
column in `findManyRelationLinksViaLinkTable` and with the target-id column in
the link-table branch of the filter rewriter). -/
def queryLinksWhereColIn (table : String) (col : String) (ids : List Value) : M (List Row) := fun s =>
  (Except.ok ((s.db.linkRows table).filter (fun l => ids.any (fun i => sqlEq (Row.get l col) i))),
   { s with ops := s.ops ++ [StorageOp.linkQueryOp table] })

/-- `server.queryDatabaseObject` running the guarded link-row insertion: both
the `INSERT ... ON CONFLICT DO NOTHING` form (cascading create/update, with the
pair unique in the associative table) and the `INSERT ... SELECT $1, $2 WHERE
NOT EXISTS (...)` form (`addRelations`) insert the `(selfId, targetId)` pair
exactly when it is not present yet. -/
def insertLinkIfAbsent (table selfCol targetCol : String) (selfId targetId : Value) : M Unit := fun s =>
  let rows := s.db.linkRows table
  let present := rows.any (fun l => sqlEq (Row.get l selfCol) selfId && sqlEq (Row.get l targetCol) targetId)
  let rows' := if present then rows else rows ++ [([(selfCol, selfId), (targetCol, targetId)] : Row)]
  (Except.ok (),
   { s with
     db := { s.db with links := updateAssoc s.db.links table rows' },
     ops := s.ops ++ [StorageOp.linkInsertOp table selfCol targetCol selfId targetId] })

/-- `server.queryDatabaseObject` running
`DELETE FROM linkTable WHERE selfCol = $1` (full-replace pass of
`updateEntityById`). -/
def deleteLinksWhereSelf (table selfCol : String) (selfId : Value) : M Unit := fun s =>
  (Except.ok (),
   { s with
     db := { s.db with
             links := updateAssoc s.db.links table
               ((s.db.linkRows table).filter (fun l => !sqlEq (Row.get l selfCol) selfId)) },
     ops := s.ops ++ [StorageOp.linkDeleteAllOp table selfCol selfId] })

/-- `server.queryDatabaseObject` running
`DELETE FROM linkTable WHERE selfCol = $1 AND targetCol = $2` (`removeRelations`). -/
def deleteLinkPair (table selfCol targetCol : String) (selfId targetId : Value) : M Unit := fun s =>
  (Except.ok (),
   { s with
     db := { s.db with
             links := updateAssoc s.db.links table
               ((s.db.linkRows table).filter
                 (fun l => !(sqlEq (Row.get l selfCol) selfId && sqlEq (Row.get l targetCol) targetId))) },
     ops := s.ops ++ [StorageOp.linkDeletePairOp table selfCol targetCol selfId targetId] })

/-- Modelled from the spec: `mapEntityToDbRow` (from `./entityMapper`, not among
the provided sources). Per spec sections 4.3 and 6, the physical row carries the
non-relation properties mapped to their column names (`columnName` falling back
to the property code); relation-valued keys are resolved separately by the
cascading logic, unknown keys are not columns, and `id` maps to itself. -/
def mapEntityToDbRow (model : RpdDataModel) (entity : Row) : Row :=
  List.foldl (fun (row : Row) (kv : String × Value) =>
    match model.properties.find? (fun p => p.code == kv.1) with
    | some p => if isRelationProperty p then row else Row.set row (p.columnName.getD p.code) kv.2
    | none => if kv.1 == "id" then Row.set row "id" kv.2 else row) [] entity

/-- Modelled from the spec: row-to-entity direction of `./entityMapper` (not
among the provided sources). Non-relation property columns map back to property
codes, already-attached relation values keep their property code, `id` is kept,
and any other column is kept only when `keepNonPropertyFields` is set. -/
def mapDbRowToEntityRow (model : RpdDataModel) (row : Row) (keepNonPropertyFields : Bool) : Row :=
  List.foldl (fun (e : Row) (kv : String × Value) =>
    if kv.1 == "id" then Row.set e "id" kv.2
    else
      match model.properties.find? (fun p => (p.columnName.getD p.code) == kv.1 && !isRelationProperty p) with
      | some p => Row.set e p.code kv.2
      | none =>
        match model.properties.find? (fun p => p.code == kv.1 && isRelationProperty p) with
        | some p => Row.set e p.code kv.2
        | none => if keepNonPropertyFields then Row.set e kv.1 kv.2 else e) [] row

/-- `mapDbRowToEntity` applied to a row that may be missing: mapping a missing
row yields nothing without consulting the model. -/
def mapDbRowToEntity (model : RpdDataModel) (row : Option Row) (keep : Bool) : Option Row :=
  row.map (fun r => mapDbRowToEntityRow model r keep)

/-- Modelled from the spec: `getEntityPartChanges` (from `~/helpers/entityHelpers`,
not among the provided sources). Per spec section 4.4 step 2, it computes the
structural diff of the supplied partial entity against the current entity — the
supplied top-level fields whose value differs structurally — and reports
nothing when no field changed. -/
def getEntityPartChanges (entity : Row) (entityToSave : Row) : Option Row :=
  let changed := List.filter (fun (kv : String × Value) => Row.get entity kv.1 != some kv.2) entityToSave
  if changed.isEmpty then none else some changed

/-- The model registry of the server (external contract `getModel`): the models
registered with the server, immutable per request. -/
structure ServerEnv where
  models : List RpdDataModel

/-- `server.getModel` by singular code. -/
def ServerEnv.getModel (env : ServerEnv) (code : Option String) : Option RpdDataModel :=
  match code with
  | none => none
  | some c => env.models.find? (fun m => m.singularCode == c)

/-- `FindEntityOptions` restricted to the fields the claims depend on; ordering
and pagination are applied by the external accessor after row selection and are
not modelled. -/
structure FindEntityOptions where
  filters : Option (List EntityFilter) := none
  properties : Option (List String) := none
  keepNonPropertyFields : Bool := false

/-- lodash `uniq` with an accumulator of already-seen values: keep the first
occurrence of each value. -/
def uniqValuesAux (seen : List Value) : List Value → List Value
  | [] => []
  | x :: rest =>
    if seen.contains x then uniqValuesAux seen rest
    else x :: uniqValuesAux (x :: seen) rest

/-- lodash `uniq`: deduplicate keeping first occurrences. -/
def uniqValues (l : List Value) : List Value :=
  uniqValuesAux [] l

/-- Walk of `options.properties` in `findEntities` (entityManager.ts lines
45-69): partition the requested property codes into physical columns to select
and relation properties to expand, raising the configuration errors the source
raises. -/
def collectPropertiesToSelect (model : RpdDataModel) :
    List String → Except String (List String × List RpdDataModelProperty)
  | [] => Except.ok ([], [])
  | propertyCode :: rest => do
    match model.properties.find? (fun e => e.code == propertyCode) with
    | none => Except.error "Collection does not have such a property"
    | some property => do
      let (fields, relProps) ← collectPropertiesToSelect model rest
      if isRelationProperty property then
        if property.relation = some "one" ∧ property.linkTableName = none then
          match property.targetIdColumnName with
          | none => Except.error "targetIdColumnName should be configured for the property"
          | some c => Except.ok (c :: fields, property :: relProps)
        else Except.ok (fields, property :: relProps)
      else Except.ok ((property.columnName.getD property.code) :: fields, relProps)

/-- `findManyRelationLinksViaLinkTable` (entityManager.ts lines 344-376): load
the link rows for the page of base ids, batch-fetch the referenced target
entities, and attach each link's target entity under the `targetEntity` key
(a missing match stores NULL, as the JavaScript assignment of `undefined`
does). -/
def findManyRelationLinksViaLinkTable (targetModel : RpdDataModel)
    (p : RpdDataModelProperty) (entityIds : List Value) : M (List Row) := do
  let links ← queryLinksWhereColIn (p.linkTableName.getD "") (p.selfIdColumnName.getD "") entityIds
  let targetEntityIds := links.map (fun l => (Row.get l (p.targetIdColumnName.getD "")).getD .vNull)
  let targetEntities ← daFind targetModel.singularCode
    [EntityFilter.leaf (some "id") .opIn (.vArr targetEntityIds)]
  M.pure (links.map (fun l =>
    match targetEntities.find? (fun e => rowId e == (Row.get l (p.targetIdColumnName.getD "")).getD .vNull) with
    | some e => Row.set l "targetEntity" (Value.vObj e)
    | none => Row.set l "targetEntity" Value.vNull))

/-- `findManyRelatedEntitiesViaIdPropertyCode` (entityManager.ts lines 378-398). -/
def findManyRelatedEntitiesViaIdPropertyCode (p : RpdDataModelProperty)
    (entityIds : List Value) : M (List Row) :=
  daFind (p.targetSingularCode.getD "")
    [EntityFilter.leaf p.selfIdColumnName .opIn (.vArr entityIds)]

/-- `findOneRelatedEntitiesViaIdPropertyCode` (entityManager.ts lines 400-420). -/
def findOneRelatedEntitiesViaIdPropertyCode (p : RpdDataModelProperty)
    (targetEntityIds : List Value) : M (List Row) :=
  daFind (p.targetSingularCode.getD "")
    [EntityFilter.leaf (some "id") .opIn (.vArr targetEntityIds)]

/-- Map a list of matched related rows through `mapDbRowToEntity`: dereferencing
an unregistered target model (`targetModel!` in the source) raises a TypeError,
but only when the mapping callback actually runs on some row. -/
def mapRowsChecked (tm : Option RpdDataModel) (rows : List Row) : Except String (List Row) :=
  match rows with
  | [] => Except.ok []
  | _ :: _ =>
    match tm with
    | none => Except.error "TypeError: the target model is not registered"
    | some m => Except.ok (rows.map (fun r => mapDbRowToEntityRow m r false))

/-- Attachment pass for a link-table many-relation (entityManager.ts lines
107-111): per base row, the link rows whose self-id column equals the row's id
(loose JavaScript equality), each mapped from its attached `targetEntity`. -/
def attachLinkMany (targetModel : RpdDataModel) (p : RpdDataModelProperty)
    (relationLinks : List Row) (entities : List Row) : List Row :=
  entities.map (fun entity =>
    Row.set entity p.code (Value.vArr
      ((relationLinks.filter (fun l =>
          (Row.get l (p.selfIdColumnName.getD "")).getD .vNull == rowId entity)).map
        (fun l =>
          match Row.get l "targetEntity" with
          | some (Value.vObj fs) => Value.vObj (mapDbRowToEntityRow targetModel fs false)
          | _ => Value.vNull))))

/-- Attachment pass for an FK-based many-relation (entityManager.ts lines
144-150): per base row, the related rows whose self-id column equals the row's
id; mapping them dereferences the possibly-unregistered target model. -/
def attachManyNoLink (tm : Option RpdDataModel) (p : RpdDataModelProperty)
    (relatedEntities : List Row) : List Row → Except String (List Row)
  | [] => Except.ok []
  | entity :: rest => do
    let matched := relatedEntities.filter (fun re =>
      (Row.get re (p.selfIdColumnName.getD "")).getD .vNull == rowId entity)
    let mapped ← mapRowsChecked tm matched
    let rest' ← attachManyNoLink tm p relatedEntities rest
    Except.ok (Row.set entity p.code (Value.vArr (mapped.map Value.vObj)) :: rest')

/-- Attachment pass for an owning-one relation (entityManager.ts lines
151-159): per base row, the single related row whose id equals the row's
target-id column (or NULL when absent). -/
def attachOne (tm : Option RpdDataModel) (p : RpdDataModelProperty)
    (relatedEntities : List Row) : List Row → Except String (List Row)
  | [] => Except.ok []
  | entity :: rest => do
    let found := relatedEntities.find? (fun re =>
      rowId re == (Row.get entity (p.targetIdColumnName.getD "")).getD .vNull)
    let mapped ←
      match found with
      | none => Except.ok Value.vNull
      | some re =>
        match tm with
        | none => Except.error "TypeError: the target model is not registered"
        | some m => Except.ok (Value.vObj (mapDbRowToEntityRow m re false))
    let rest' ← attachOne tm p relatedEntities rest
    Except.ok (Row.set entity p.code mapped :: rest')

/-- The relation-expansion loop of `findEntities` (entityManager.ts lines
90-162), one requested relation property at a time. A link-table relation whose
target model is not registered is skipped silently (`continue`); a link-table
one-relation has no expansion case in the source and is also left untouched. -/
def expandRelations (env : ServerEnv) (model : RpdDataModel) (entityIds : List Value) :
    List RpdDataModelProperty → List Row → M (List Row)
  | [], entities => M.pure entities
  | p :: rest, entities => do
    if p.linkTableName ≠ none then
      match env.getModel p.targetSingularCode with
      | none => expandRelations env model entityIds rest entities
      | some targetModel =>
        if p.relation = some "many" then do
          let links ← findManyRelationLinksViaLinkTable targetModel p entityIds
          expandRelations env model entityIds rest (attachLinkMany targetModel p links entities)
        else
          expandRelations env model entityIds rest entities
    else
      if p.relation = some "many" then do
        let relatedEntities ← findManyRelatedEntitiesViaIdPropertyCode p entityIds
        match attachManyNoLink (env.getModel p.targetSingularCode) p relatedEntities entities with
        | .error e => M.throw e
        | .ok entities' => expandRelations env model entityIds rest entities'
      else do
        let targetEntityIds := uniqValues
          (((entities.map (fun entity => Row.get entity (p.targetIdColumnName.getD ""))).filter
            (fun w => !isNullOrUndefinedOpt w)).map (fun w => w.getD .vNull))
        let relatedEntities ← findOneRelatedEntitiesViaIdPropertyCode p targetEntityIds
        match attachOne (env.getModel p.targetSingularCode) p relatedEntities entities with
        | .error e => M.throw e
        | .ok entities' => expandRelations env model entityIds rest entities'

/-- The filter rewriter run against the current database state (its queries are
reads of the target collections and link tables). -/
def runRewriter (model : RpdDataModel) (filters : Option (List EntityFilter)) :
    M (List EntityFilter) := fun s =>
  (replaceFiltersWithFiltersOperator s.db model filters, s)

/-- `findEntities` (entityManager.ts lines 37-165): resolve the requested
properties, rewrite the filters, fetch the base page, expand the requested
relation properties, and map the rows back to entities. -/
def findEntitiesM (env : ServerEnv) (model : RpdDataModel) (options : FindEntityOptions) :
    M (List Row) := do
  match collectPropertiesToSelect model (options.properties.getD []) with
  | .error e => M.throw e
  | .ok (_fieldsToSelect, relationPropertiesToSelect) => do
    let processedFilters ← runRewriter model options.filters
    let entities ← daFind model.singularCode processedFilters
    if entities.isEmpty then
      M.pure entities
    else do
      let entityIds := entities.map rowId
      let expanded ← expandRelations env model entityIds relationPropertiesToSelect entities
      M.pure (expanded.map (fun item => mapDbRowToEntityRow model item options.keepNonPropertyFields))

/-- `findEntity` (entityManager.ts lines 167-174): the first found entity. -/
def findEntityM (env : ServerEnv) (model : RpdDataModel) (options : FindEntityOptions) :
    M (Option Row) := do
  let entities ← findEntitiesM env model options
  M.pure entities.head?

/-- `findById` (entityManager.ts lines 176-192). -/
def findByIdM (env : ServerEnv) (model : RpdDataModel) (i : Value)
    (keepNonPropertyFields : Bool) : M (Option Row) :=
  findEntityM env model
    { filters := some [EntityFilter.leaf (some "id") .eq i]
      keepNonPropertyFields := keepNonPropertyFields }

/-- Partition of an entity's known property keys into owning-one and many
relation properties (entityManager.ts lines 430-446 for create and 574-590 for
update): keys without a matching property are skipped, relation properties go
to the `many` list when `relation === "many"` and to the one list otherwise. -/
def relationPropertiesOf (model : RpdDataModel) (entity : Row) :
    List RpdDataModelProperty × List RpdDataModelProperty :=
  let props := List.filterMap
    (fun (kv : String × Value) => model.properties.find? (fun p => p.code == kv.1)) entity
  let rel := props.filter (fun p => isRelationProperty p)
  (rel.filter (fun p => !(p.relation == some "many")), rel.filter (fun p => p.relation == some "many"))

mutual

/-- `createEntity` (entityManager.ts lines 422-550): resolve owning-one
relations into foreign-key columns (recursively creating embedded objects
without an id), persist the scalar+FK row, then save the many-relation
properties. The fuel argument (first, structurally decreasing at every call)
bounds the recursion through embedded entities; exhausted fuel fails without
touching storage. -/
def createEntityM : Nat → ServerEnv → RpdDataModel → Row → M Row
  | 0, _, _, _ => M.throw "recursion fuel exhausted"
  | fuel+1, env, model, entity => do
    let row := mapEntityToDbRow model entity
    let row ← resolveOneRelationsForCreate fuel env entity (relationPropertiesOf model entity).1 row
    let newRow ← daCreate model.singularCode row
    let newEntity := mapDbRowToEntityRow model newRow false
    saveManyRelationsForCreate fuel env entity newEntity (relationPropertiesOf model entity).2

/-- The owning-one loop of `createEntity` (entityManager.ts lines 451-470): an
embedded object with a truthy id, or a bare id value, is written to the
foreign-key column directly; an embedded object without a truthy id is
recursively created first and its new id is written. -/
def resolveOneRelationsForCreate : Nat → ServerEnv → Row → List RpdDataModelProperty → Row → M Row
  | 0, _, _, _, _ => M.throw "recursion fuel exhausted"
  | _+1, _, _, [], row => M.pure row
  | fuel+1, env, entity, p :: rest, row => do
    let fieldValue := (Row.get entity p.code).getD .vNull
    let row' ←
      if fieldValue.isObject then
        if !truthyOpt (Row.get fieldValue.objFields "id") then do
          match env.getModel p.targetSingularCode with
          | none => M.throw "TypeError: the target data accessor is not available"
          | some targetModel => do
            let newTargetEntity ← createEntityM fuel env targetModel fieldValue.objFields
            M.pure (Row.set row (p.targetIdColumnName.getD "")
              ((Row.get newTargetEntity "id").getD .vNull))
        else
          M.pure (Row.set row (p.targetIdColumnName.getD "")
            ((Row.get fieldValue.objFields "id").getD .vNull))
      else
        M.pure (Row.set row (p.targetIdColumnName.getD "") fieldValue)
    resolveOneRelationsForCreate fuel env entity rest row'

/-- The many-relation loop of `createEntity` (entityManager.ts lines 476-546):
per property, the field value must be an array; its elements are saved one by
one and the resulting target entities are attached under the property code. -/
def saveManyRelationsForCreate : Nat → ServerEnv → Row → Row → List RpdDataModelProperty → M Row
  | 0, _, _, _, _ => M.throw "recursion fuel exhausted"
  | _+1, _, _, newEntity, [] => M.pure newEntity
  | fuel+1, env, entity, newEntity, p :: rest => do
    let newEntity := Row.set newEntity p.code (Value.vArr [])
    match (Row.get entity p.code).getD .vNull with
    | Value.vArr els => do
      let savedRows ← saveManyRelationElements fuel env p (rowId newEntity) els
      saveManyRelationsForCreate fuel env entity
        (Row.set newEntity p.code (Value.vArr (savedRows.map Value.vObj))) rest
    | _ => M.throw "Value of the field should be an array"

/-- The per-element loop shared (textually duplicated in the source) by
`createEntity` (lines 488-545) and `updateEntityById` (lines 624-681). -/
def saveManyRelationElements : Nat → ServerEnv → RpdDataModelProperty → Value → List Value → M (List Row)
  | 0, _, _, _, _ => M.throw "recursion fuel exhausted"
  | _+1, _, _, _, [] => M.pure []
  | fuel+1, env, p, ownerId, el :: rest => do
    let saved ← saveManyRelationElement fuel env p ownerId el
    let rest' ← saveManyRelationElements fuel env p ownerId rest
    M.pure (saved :: rest')

/-- Saving one element of a many-relation value: an embedded object without a
truthy id is recursively created (its self-id column pre-set to the owner for
an FK relation, a link row inserted for a link-table relation); an object with
an id or a bare id must reference an existing target row, which is then linked
(link row insert) or re-pointed (FK column update). -/
def saveManyRelationElement : Nat → ServerEnv → RpdDataModelProperty → Value → Value → M Row
  | 0, _, _, _, _ => M.throw "recursion fuel exhausted"
  | fuel+1, env, p, ownerId, el => do
    let targetCode := p.targetSingularCode.getD ""
    if el.isObject ∧ !truthyOpt (Row.get el.objFields "id") then do
      -- related entity is to be created
      match env.getModel p.targetSingularCode with
      | none => M.throw "TypeError: the target data accessor is not available"
      | some targetModel => do
        let targetEntity :=
          if p.linkTableName = none then Row.set el.objFields (p.selfIdColumnName.getD "") ownerId
          else el.objFields
        let newTargetEntity ← createEntityM fuel env targetModel targetEntity
        if p.linkTableName ≠ none then
          insertLinkIfAbsent (p.linkTableName.getD "") (p.selfIdColumnName.getD "")
            (p.targetIdColumnName.getD "") ownerId ((Row.get newTargetEntity "id").getD .vNull)
        M.pure newTargetEntity
    else do
      -- related entity is existed (an object carrying an id, or a bare id value)
      let relatedEntityId :=
        if el.isObject then (Row.get el.objFields "id").getD .vNull else el
      let targetEntityOpt ← daFindById targetCode relatedEntityId
      match targetEntityOpt with
      | none => M.throw "Entity with the id in the field is not exists."
      | some targetEntity =>
        if p.linkTableName ≠ none then do
          insertLinkIfAbsent (p.linkTableName.getD "") (p.selfIdColumnName.getD "")
            (p.targetIdColumnName.getD "") ownerId relatedEntityId
          M.pure targetEntity
        else do
          let _ ← daUpdateById targetCode (rowId targetEntity)
            [((p.selfIdColumnName.getD ""), ownerId)]
          M.pure (Row.set targetEntity (p.selfIdColumnName.getD "") ownerId)

end

/-- The owning-one pass of `updateEntityById` (entityManager.ts lines 593-600):
each changed owning-one field writes the foreign-key column of the physical
row from the changed value — the `id` field of an embedded object (absent ids
become NULL), or the bare value itself. -/
def applyOneRelationChanges (changes : Row) (props : List RpdDataModelProperty) (row : Row) : Row :=
  match props with
  | [] => row
  | p :: rest =>
    let fieldValue := (Row.get changes p.code).getD .vNull
    let row' :=
      if fieldValue.isObject then
        Row.set row (p.targetIdColumnName.getD "") ((Row.get fieldValue.objFields "id").getD .vNull)
      else
        Row.set row (p.targetIdColumnName.getD "") fieldValue
    applyOneRelationChanges changes rest row'

/-- The many-relation pass of `updateEntityById` (entityManager.ts lines
608-683): per changed many property, the value must be an array; for a
link-table relation all existing link rows of this owner are deleted first,
then every element is saved exactly as in create and the results are attached. -/
def updateManyRelations (fuel : Nat) (env : ServerEnv) (changes : Row) (id : Value)
    (updatedEntity : Row) : List RpdDataModelProperty → M Row
  | [] => M.pure updatedEntity
  | p :: rest => do
    match (Row.get changes p.code).getD .vNull with
    | Value.vArr els => do
      if p.linkTableName ≠ none then
        deleteLinksWhereSelf (p.linkTableName.getD "") (p.selfIdColumnName.getD "") id
      let savedRows ← saveManyRelationElements fuel env p id els
      updateManyRelations fuel env changes id
        (Row.set updatedEntity p.code (Value.vArr (savedRows.map Value.vObj))) rest
    | _ => M.throw "Value of the field should be an array"

/-- `updateEntityById` (entityManager.ts lines 552-698): load the current
entity, diff, write the changed scalar+FK columns (single update, only when a
physical column changed), replay changed many-relations, and emit the
`entity.update` event. -/
def updateEntityByIdM (fuel : Nat) (env : ServerEnv) (model : RpdDataModel)
    (id : Value) (entityToSave : Row) : M Row := do
  if !id.truthy then M.throw "Id is required when updating an entity." else do
  let entityOpt ← findByIdM env model id false
  match entityOpt with
  | none => M.throw "The entity with the id was not found."
  | some entity =>
    match getEntityPartChanges entity entityToSave with
    | none => M.pure entity
    | some changes => do
      let row := mapEntityToDbRow model changes
      let row := applyOneRelationChanges changes (relationPropertiesOf model changes).1 row
      let updatedRow ←
        if row.isEmpty then M.pure row
        else daUpdateById model.singularCode id row
      let updatedEntity := Row.merge entity updatedRow
      let updatedEntity ← updateManyRelations fuel env changes id updatedEntity
        (relationPropertiesOf model changes).2
      emitEvent "entity.update"
        [("namespace", .vStr model.nspace),
         ("modelSingularCode", .vStr model.singularCode),
         ("before", .vObj entity),
         ("after", .vObj updatedEntity),
         ("changes", .vObj changes)]
      M.pure updatedEntity

/-- `EntityManager.createEntity` (entityManager.ts lines 725-740): run the
cascading create, then emit exactly one `entity.create` event for the
top-level entity. -/
def createEntityEM (fuel : Nat) (env : ServerEnv) (model : RpdDataModel) (entity : Row) :
    M Row := do
  let newEntity ← createEntityM fuel env model entity
  emitEvent "entity.create"
    [("namespace", .vStr model.nspace),
     ("modelSingularCode", .vStr model.singularCode),
     ("after", .vObj newEntity)]
  M.pure newEntity

/-- `EntityManager.deleteById` (entityManager.ts lines 750-767): a missing
entity returns silently; an existing one is deleted and `entity.delete` is
emitted with the full prior entity as `before`. -/
def deleteByIdEM (env : ServerEnv) (model : RpdDataModel) (id : Value) : M Unit := do
  let entityOpt ← findByIdM env model id true
  match entityOpt with
  | none => M.pure ()
  | some entity => do
    daDeleteById model.singularCode id
    emitEvent "entity.delete"
      [("namespace", .vStr model.nspace),
       ("modelSingularCode", .vStr model.singularCode),
       ("before", .vObj entity)]

/-- The per-pair loop of `addRelations`: one guarded link-row insertion per
requested relation. -/
def addRelationPairs (p : RpdDataModelProperty) (id : Value) : List Value → M Unit
  | [] => M.pure ()
  | rel :: rest => do
    insertLinkIfAbsent (p.linkTableName.getD "") (p.selfIdColumnName.getD "")
      (p.targetIdColumnName.getD "") id ((Row.get rel.objFields "id").getD .vNull)
    addRelationPairs p id rest

/-- The per-pair loop of `removeRelations`: one pair deletion per requested
relation. -/
def removeRelationPairs (p : RpdDataModelProperty) (id : Value) : List Value → M Unit
  | [] => M.pure ()
  | rel :: rest => do
    deleteLinkPair (p.linkTableName.getD "") (p.selfIdColumnName.getD "")
      (p.targetIdColumnName.getD "") id ((Row.get rel.objFields "id").getD .vNull)
    removeRelationPairs p id rest

/-- `EntityManager.addRelations` (entityManager.ts lines 769-812): the owner
entity must exist and the property must be a many-relation; for a link-table
relation each `(id, relation.id)` pair is inserted guarded by an existence
check; the `entity.addRelations` event is emitted. -/
def addRelationsEM (env : ServerEnv) (model : RpdDataModel) (id : Value)
    (property : String) (relations : List Value) : M Unit := do
  let entityOpt ← findByIdM env model id false
  match entityOpt with
  | none => M.throw "The entity with the id was not found."
  | some entity =>
    match model.properties.find? (fun e => e.code == property) with
    | none => M.throw "The property was not found in the model."
    | some relationProperty =>
      if ¬ (isRelationProperty relationProperty ∧ relationProperty.relation = some "many") then
        M.throw "Operation addRelations is only supported on property of many relation"
      else do
        if relationProperty.linkTableName ≠ none then
          addRelationPairs relationProperty id relations
        emitEvent "entity.addRelations"
          [("namespace", .vStr model.nspace),
           ("modelSingularCode", .vStr model.singularCode),
           ("entity", .vObj entity),
           ("property", .vStr property),
           ("relations", .vArr relations)]

/-- `EntityManager.removeRelations` (entityManager.ts lines 814-853): same
validation as `addRelations`; for a link-table relation each matching pair is
deleted unconditionally; the `entity.removeRelations` event is emitted. -/
def removeRelationsEM (env : ServerEnv) (model : RpdDataModel) (id : Value)
    (property : String) (relations : List Value) : M Unit := do
  let entityOpt ← findByIdM env model id false
  match entityOpt with
  | none => M.throw "The entity with the id was not found."
  | some entity =>
    match model.properties.find? (fun e => e.code == property) with
    | none => M.throw "The property was not found in the model."
    | some relationProperty =>
      if ¬ (isRelationProperty relationProperty ∧ relationProperty.relation = some "many") then
        M.throw "Operation removeRelations is only supported on property of many relation"
      else do
        if relationProperty.linkTableName ≠ none then
          removeRelationPairs relationProperty id relations
        emitEvent "entity.removeRelations"
          [("namespace", .vStr model.nspace),
           ("modelSingularCode", .vStr model.singularCode),
           ("entity", .vObj entity),
           ("property", .vStr property),
           ("relations", .vArr relations)]

deriving instance DecidableEq for Except

/-- Whether a storage operation is an entity-row creation. -/
def StorageOp.isCreate : StorageOp → Bool
  | .createOp _ _ => true
  | _ => false

/-- A computation that emits no events, whatever state it runs in. -/
def M.preservesEvents {a : Type} (x : M a) : Prop :=
  ∀ s : SState, ((x s).2).events = s.events

/-- The link row written for a `(selfId, targetId)` pair. -/
def linkPairRow (selfCol targetCol : String) (selfId targetId : Value) : Row :=
  [(selfCol, selfId), (targetCol, targetId)]

/-- Pure replay of a sequence of guarded link-pair insertions (the per-element
inserts of the cascading many-relation code) on a link table. -/
def insertPairs (selfCol targetCol : String) (ownerId : Value) :
    List Value → List Row → List Row
  | [], rows => rows
  | t :: rest, rows =>
    let present := rows.any (fun l =>
      sqlEq (Row.get l selfCol) ownerId && sqlEq (Row.get l targetCol) t)
    insertPairs selfCol targetCol ownerId rest
      (if present then rows else rows ++ [linkPairRow selfCol targetCol ownerId t])

/-- First occurrences of the target ids not already seen: the target ids that a
sequence of guarded inserts actually adds. -/
def newTargets (seen : List Value) : List Value → List Value
  | [] => []
  | t :: rest =>
    if seen.contains t then newTargets seen rest
    else t :: newTargets (seen ++ [t]) rest

/-- Pure replay of the FK-relation element updates: each referenced target row
has its self-id column repointed to the owner. -/
def applyFkLinks (selfCol : String) (ownerId : Value) :
    List Value → List Row → List Row
  | [], rows => rows
  | t :: rest, rows =>
    applyFkLinks selfCol ownerId rest
      (rows.map (fun r => if rowId r == t then Row.merge r [(selfCol, ownerId)] else r))

namespace Fixture

/-- Target model `b`: a plain collection with a scalar `name` and the FK column
`a_id` declared as a scalar property. -/
def bModel : RpdDataModel :=
  { nspace := "app", singularCode := "b", pluralCode := "bs",
    properties := [ { code := "name" }, { code := "a_id" } ] }

/-- Tag model for the link-table relation. -/
def tagModel : RpdDataModel :=
  { nspace := "app", singularCode := "tag", pluralCode := "tags",
    properties := [ { code := "name" } ] }

/-- The owning-one relation property of model `a`. -/
def authorProp : RpdDataModelProperty :=
  { code := "author", relation := some "one", targetSingularCode := some "b",
    targetIdColumnName := some "author_id" }

/-- The FK-based many-relation property of model `a`. -/
def itemsProp : RpdDataModelProperty :=
  { code := "items", relation := some "many", targetSingularCode := some "b",
    selfIdColumnName := some "a_id" }

/-- The link-table many-relation property of model `a`. -/
def tagsProp : RpdDataModelProperty :=
  { code := "tags", relation := some "many", targetSingularCode := some "tag",
    selfIdColumnName := some "a_id", targetIdColumnName := some "tag_id",
    linkTableName := some "a_tag_links" }

/-- A link-table many-relation whose target model is not registered. -/
def ghostsProp : RpdDataModelProperty :=
  { code := "ghosts", relation := some "many", targetSingularCode := some "ghost",
    selfIdColumnName := some "a_id", targetIdColumnName := some "ghost_id",
    linkTableName := some "a_ghost_links" }

/-- An FK-based many-relation whose target model is not registered. -/
def phantomsProp : RpdDataModelProperty :=
  { code := "phantoms", relation := some "many", targetSingularCode := some "phantom",
    selfIdColumnName := some "a_id" }

/-- Base model `a` exercising all three relation storage strategies. -/
def aModel : RpdDataModel :=
  { nspace := "app", singularCode := "a", pluralCode := "as",
    properties :=
      [ { code := "title" }, authorProp, itemsProp, tagsProp, ghostsProp, phantomsProp ] }

/-- The registered models (`ghost` and `phantom` are deliberately absent). -/
def env : ServerEnv := { models := [aModel, bModel, tagModel] }

/-- A small database: one `a` row, one `b` row, one `tag` row, no links. -/
def db0 : Db :=
  { collections :=
      [ ("a", [[("id", .vNum 1), ("title", .vStr "t")]]),
        ("b", [[("id", .vNum 2), ("name", .vStr "n"), ("a_id", .vNum 9)]]),
        ("tag", [[("id", .vNum 3), ("name", .vStr "g")]]) ],
    links := [] }

/-- The starting server state over `db0`. -/
def s0 : SState := { db := db0, nextId := 10, events := [], ops := [] }

/-- A state exercising the full-replace pass of the link-table branch: two
pre-existing `tags` links, one of them owned by entity 1. -/
def s4a : SState :=
  { db := { collections := db0.collections,
            links := [("a_tag_links",
              [ [("a_id", .vNum 1), ("tag_id", .vNum 7)],
                [("a_id", .vNum 5), ("tag_id", .vNum 3)] ])] },
    nextId := 10, events := [], ops := [] }

/-- A state exercising the FK pass: two `b` rows, one referenced by the new
element set and one already pointing at owner 1 but not referenced. -/
def s4b : SState :=
  { db := { collections :=
              [ ("a", [[("id", .vNum 1), ("title", .vStr "t")]]),
                ("b", [ [("id", .vNum 2), ("name", .vStr "n"), ("a_id", .vNum 9)],
                        [("id", .vNum 4), ("name", .vStr "m"), ("a_id", .vNum 1)] ]) ],
            links := [] },
    nextId := 10, events := [], ops := [] }

end Fixture

mutual

/-- Every successful rewrite of one filter node yields an existence-free tree. -/
theorem noExists_replaceOne (db : Db) (model : RpdDataModel) :
    ∀ f f', replaceOneFilter db model f = Except.ok f' → noExistenceNodes f' = true
  | .leaf f op v, f', h => by
    simp only [replaceOneFilter, pure, Except.pure, Except.ok.injEq] at h
    subst h
    rfl
  | .logical op fs, f', h => by
    simp only [replaceOneFilter] at h
    cases hr : replaceFilterList db model fs with
    | error e =>
      rw [hr] at h
      simp [Bind.bind, Except.bind] at h
    | ok replaced =>
      rw [hr] at h
      simp only [Bind.bind, Except.bind, pure, Except.pure, Except.ok.injEq] at h
      subst h
      have hrec := noExists_replaceList db model fs replaced hr
      simpa [noExistenceNodes] using hrec
  | .existence op fieldName nested, f', h => by
    unfold replaceOneFilter at h
    repeat' split at h
    all_goals
      first
        | exact Except.noConfusion h
        | (simp only [pure, Except.pure, Except.ok.injEq] at h; subst h; rfl)
termination_by f _ _ => sizeOf f

/-- Every successful rewrite of a filter list yields an existence-free list. -/
theorem noExists_replaceList (db : Db) (model : RpdDataModel) :
    ∀ fs fs', replaceFilterList db model fs = Except.ok fs' → noExistenceNodesList fs' = true
  | [], fs', h => by
    simp only [replaceFilterList, pure, Except.pure, Except.ok.injEq] at h
    subst h
    rfl
  | f :: rest, fs', h => by
    simp only [replaceFilterList] at h
    cases h1 : replaceOneFilter db model f with
    | error e =>
      rw [h1] at h
      simp [Bind.bind, Except.bind] at h
    | ok f1 =>
      rw [h1] at h
      cases h2 : replaceFilterList db model rest with
      | error e =>
        rw [h2] at h
        simp [Bind.bind, Except.bind] at h
      | ok rest1 =>
        rw [h2] at h
        simp only [Bind.bind, Except.bind, pure, Except.pure, Except.ok.injEq] at h
        subst h
        have hf := noExists_replaceOne db model f f1 h1
        have hr := noExists_replaceList db model rest rest1 h2
        simp [noExistenceNodesList, hf, hr]
termination_by fs _ _ => sizeOf fs

end

/-- Reduction of a bound computation at a state. -/
theorem M.bind_apply {α β : Type} (x : M α) (f : α → M β) (s : SState) :
    (x >>= f) s =
      match x s with
      | (Except.ok a, s') => f a s'
      | (Except.error e, s') => (Except.error e, s') := rfl

/-- Reduction of `pure` at a state. -/
theorem M.pure_apply {α : Type} (a : α) (s : SState) :
    (Pure.pure a : M α) s = (Except.ok a, s) := rfl

/-- C1: for every model and every input filter list on which the filter
rewriter raises no error, the returned filter tree contains no node whose
operator is `exists` or `notExists` at any nesting depth (including inside
`and`/`or` nodes); every such node has been replaced before the result is
handed to the Data Accessor. -/
theorem C1_rewrite_has_no_existence_nodes
    (db : Db) (model : RpdDataModel) (filters : Option (List EntityFilter))
    (result : List EntityFilter)
    (h : replaceFiltersWithFiltersOperator db model filters = Except.ok result) :
    noExistenceNodesList result = true := by
  cases filters with
  | none =>
    simp only [replaceFiltersWithFiltersOperator, pure, Except.pure, Except.ok.injEq] at h
    subst h
    rfl
  | some fs => exact noExists_replaceList db model fs result h

/-- Witness for C1: a concrete rewrite exercising the nested `and` case, the
optimized one-relation case, the FK many-relation subquery and the link-table
subquery succeeds, and its output is existence-free. -/
theorem C1_witness :
    replaceFiltersWithFiltersOperator Fixture.db0 Fixture.aModel
      (some [ .logical .opAnd [.existence .opExists (some "author") [.leaf (some "id") .eq (.vNum 2)]],
              .existence .opNotExists (some "items") [.leaf (some "name") .eq (.vStr "n")],
              .existence .opExists (some "tags") [.leaf (some "name") .eq (.vStr "g")] ]) =
      Except.ok [ .logical .opAnd [.leaf (some "author_id") .eq (.vNum 2)],
                  .leaf (some "id") .opNotIn (.vArr [.vNum 9]),
                  .leaf (some "id") .opIn (.vArr []) ]
    ∧ noExistenceNodesList
        [ .logical .opAnd [.leaf (some "author_id") .eq (.vNum 2)],
          .leaf (some "id") .opNotIn (.vArr [.vNum 9]),
          .leaf (some "id") .opIn (.vArr []) ] = true :=
  ⟨by decide,
   C1_rewrite_has_no_existence_nodes Fixture.db0 Fixture.aModel
     (some [ .logical .opAnd [.existence .opExists (some "author") [.leaf (some "id") .eq (.vNum 2)]],
             .existence .opNotExists (some "items") [.leaf (some "name") .eq (.vStr "n")],
             .existence .opExists (some "tags") [.leaf (some "name") .eq (.vStr "g")] ])
     _ (by decide)⟩

/-- C6: an `exists`/`notExists` filter on a one-relation property whose nested
filter list is exactly one leaf of the form `field:"id", operator: eq|in` is
rewritten — identically for every database state, hence without querying the
target collection — to a single leaf on the property's `targetIdColumnName`
carrying the same value, with the operator unchanged for `exists` and mapped
eq→ne, in→notIn for `notExists`. -/
theorem C6_one_relation_id_shortcut
    (db : Db) (model : RpdDataModel) (p : RpdDataModelProperty)
    (exOp : ExistenceOperator) (fieldName : Option String)
    (lop : LeafOperator) (v : Value)
    (hfind : model.properties.find? (fun q => some q.code = fieldName) = some p)
    (hrel : isRelationProperty p = true)
    (hone : p.relation = some "one")
    (hop : lop = .eq ∨ lop = .opIn) :
    replaceOneFilter db model (.existence exOp fieldName [.leaf (some "id") lop v]) =
      Except.ok (.leaf p.targetIdColumnName
        (match exOp, lop with
         | .opExists, l => l
         | .opNotExists, .eq => .ne
         | .opNotExists, _ => .opNotIn) v) := by
  rcases hop with h | h <;> subst h <;> cases exOp <;>
    simp [replaceOneFilter, hfind, hrel, hone, pure, Except.pure]

/-- Witness for C6: a `notExists` filter on the one-relation `author` property
with a single `id eq` leaf rewrites to a `ne` leaf on `author_id`, on an empty
database just as on any other. -/
theorem C6_witness :
    replaceOneFilter (Db.mk [] []) Fixture.aModel
      (.existence .opNotExists (some "author") [.leaf (some "id") .eq (.vNum 7)]) =
      Except.ok (.leaf (some "author_id") .ne (.vNum 7)) :=
  C6_one_relation_id_shortcut (Db.mk [] []) Fixture.aModel Fixture.authorProp
    .opNotExists (some "author") .eq (.vNum 7) (by decide) (by decide) (by decide)
    (Or.inl rfl)

/-- Counterexample for C2 as stated: with a dangling foreign key — the base
row's `author_id` is 5 but the target collection holds no row with id 5 — the
optimized rewrite selects the base row while the general subquery path selects
nothing, so the two result sets differ. -/
theorem C2_counterexample :
    replaceOneFilter (Db.mk [("a", [[("id", .vNum 1), ("author_id", .vNum 5)]]), ("b", [])] [])
        Fixture.aModel (.existence .opExists (some "author") [.leaf (some "id") .eq (.vNum 5)]) =
      Except.ok (.leaf (some "author_id") .eq (.vNum 5))
    ∧ Db.findRows (Db.mk [("a", [[("id", .vNum 1), ("author_id", .vNum 5)]]), ("b", [])] [])
        (some "a") [.leaf (some "author_id") .eq (.vNum 5)] ≠
      Db.findRows (Db.mk [("a", [[("id", .vNum 1), ("author_id", .vNum 5)]]), ("b", [])] [])
        (some "a")
        [oneRelationGeneralReplacement
          (Db.mk [("a", [[("id", .vNum 1), ("author_id", .vNum 5)]]), ("b", [])] [])
          Fixture.authorProp .opExists [.leaf (some "id") .eq (.vNum 5)]] :=
  ⟨by decide, by decide⟩

/-- C2 (amended): for a one-relation `exists` filter whose nested filter is
`id eq v`, the optimized rewrite and the general subquery path select the same
base rows provided the base collection satisfies referential integrity for the
relation's target-id column — every non-null column value references an
existing target row id. -/
theorem C2_optimized_equals_subquery_under_integrity
    (db : Db) (model : RpdDataModel) (p : RpdDataModelProperty)
    (fieldName : Option String) (v : Value) (baseCode : String) (fOpt : EntityFilter)
    (tCol tc : String)
    (hfind : model.properties.find? (fun q => some q.code = fieldName) = some p)
    (hrel : isRelationProperty p = true)
    (hone : p.relation = some "one")
    (htCol : p.targetIdColumnName = some tCol)
    (htc : p.targetSingularCode = some tc)
    (hopt : replaceOneFilter db model
      (.existence .opExists fieldName [.leaf (some "id") .eq v]) = Except.ok fOpt)
    (hint : ∀ r ∈ db.collRows baseCode, (Row.get r tCol).getD .vNull ≠ .vNull →
      ∃ t ∈ db.collRows tc, rowId t = (Row.get r tCol).getD .vNull) :
    Db.findRows db (some baseCode) [fOpt] =
      Db.findRows db (some baseCode)
        [oneRelationGeneralReplacement db p .opExists [.leaf (some "id") .eq v]] := by
  simp only [replaceOneFilter, hfind, hrel, hone, Bool.not_true, Bool.false_eq_true,
    if_false, if_true, List.isEmpty_cons, pure, Except.pure, Except.ok.injEq] at hopt
  rw [htCol] at hopt
  subst hopt
  have hgen : oneRelationGeneralReplacement db p .opExists [.leaf (some "id") .eq v] =
      .leaf (some tCol) .opIn
        (.vArr ((Db.findRows db (some tc) [.leaf (some "id") .eq v]).map rowId)) := by
    simp [oneRelationGeneralReplacement, htc, htCol]
  rw [hgen]
  simp only [Db.findRows]
  apply List.filter_congr
  intro r hr
  have hstep : ∀ (f1 f2 : EntityFilter), matchFilter r f1 = matchFilter r f2 →
      matchAllFilters r [f1] = matchAllFilters r [f2] := by
    intro f1 f2 h
    simp [matchAllFilters, h]
  apply hstep
  show ((Row.get r tCol).getD .vNull != .vNull && ((Row.get r tCol).getD .vNull == v))
      = ((Row.get r tCol).getD .vNull != .vNull &&
         ((Db.findRows db (some tc) [.leaf (some "id") .eq v]).map rowId).contains
           ((Row.get r tCol).getD .vNull))
  by_cases hw : (Row.get r tCol).getD .vNull = .vNull
  · rw [hw]
    simp
  · have hbne : ((Row.get r tCol).getD .vNull != .vNull) = true := by
      simp [hw]
    rw [hbne, Bool.true_and, Bool.true_and]
    by_cases hv : (Row.get r tCol).getD .vNull = v
    · rcases hint r hr hw with ⟨t, ht, hts⟩
      have hmem : t ∈ Db.findRows db (some tc) [.leaf (some "id") .eq v] := by
        have hok : matchAllFilters t [.leaf (some "id") .eq v] = true := by
          show ((Row.get t "id").getD .vNull != .vNull
            && ((Row.get t "id").getD .vNull == v) && true) = true
          have hrid : (Row.get t "id").getD .vNull = v := by
            rw [show (Row.get t "id").getD .vNull = rowId t from rfl, hts, hv]
          rw [hrid]
          have hvnn : v ≠ Value.vNull := fun hc => hw (hv.trans hc)
          simp [hvnn]
        simp only [Db.findRows, List.mem_filter]
        exact ⟨ht, hok⟩
      have hin : ((Row.get r tCol).getD .vNull) ∈
          (Db.findRows db (some tc) [.leaf (some "id") .eq v]).map rowId :=
        List.mem_map.mpr ⟨t, hmem, hts⟩
      have hcontains :
          ((Db.findRows db (some tc) [.leaf (some "id") .eq v]).map rowId).contains
            ((Row.get r tCol).getD .vNull) = true := by
        simpa [List.elem_iff] using hin
      rw [hcontains]
      simp [hv]
    · have hne : ((Row.get r tCol).getD .vNull == v) = false := by
        simp [hv]
      have hncontains :
          ((Db.findRows db (some tc) [.leaf (some "id") .eq v]).map rowId).contains
            ((Row.get r tCol).getD .vNull) = false := by
        rw [Bool.eq_false_iff]
        intro hc
        have hin : ((Row.get r tCol).getD .vNull) ∈
            (Db.findRows db (some tc) [.leaf (some "id") .eq v]).map rowId := by
          simpa [List.elem_iff] using hc
        rcases List.mem_map.mp hin with ⟨t', ht', hts'⟩
        have hok : matchAllFilters t' [.leaf (some "id") .eq v] = true := by
          simp only [Db.findRows, List.mem_filter] at ht'
          exact ht'.2
        have hval : (Row.get t' "id").getD .vNull = v := by
          have : ((Row.get t' "id").getD .vNull != .vNull
              && ((Row.get t' "id").getD .vNull == v) && true) = true := hok
          simp only [Bool.and_true, Bool.and_eq_true, bne_iff_ne] at this
          exact beq_iff_eq.mp this.2
        exact absurd (by rw [← hts', show rowId t' = (Row.get t' "id").getD .vNull from rfl, hval]) hv
      rw [hne, hncontains]

/-- Witness for the amended C2 on a concrete database satisfying referential
integrity: both paths select exactly the base row whose `author_id` is 2. -/
theorem C2_witness :
    Db.findRows (Db.mk [("a", [[("id", .vNum 1), ("author_id", .vNum 2)]]),
        ("b", [[("id", .vNum 2), ("name", .vStr "n")]])] [])
      (some "a") [.leaf (some "author_id") .eq (.vNum 2)] =
    Db.findRows (Db.mk [("a", [[("id", .vNum 1), ("author_id", .vNum 2)]]),
        ("b", [[("id", .vNum 2), ("name", .vStr "n")]])] [])
      (some "a")
      [oneRelationGeneralReplacement
        (Db.mk [("a", [[("id", .vNum 1), ("author_id", .vNum 2)]]),
          ("b", [[("id", .vNum 2), ("name", .vStr "n")]])] [])
        Fixture.authorProp .opExists [.leaf (some "id") .eq (.vNum 2)]] :=
  C2_optimized_equals_subquery_under_integrity
    (Db.mk [("a", [[("id", .vNum 1), ("author_id", .vNum 2)]]),
      ("b", [[("id", .vNum 2), ("name", .vStr "n")]])] [])
    Fixture.aModel Fixture.authorProp (some "author") (.vNum 2) "a"
    (.leaf (some "author_id") .eq (.vNum 2)) "author_id" "b"
    (by decide) (by decide) (by decide) (by decide) (by decide) (by decide)
    (by decide)

/-- Reduction of `M.pure` at a state. -/
theorem M.pureD_apply {α : Type} (a : α) (s : SState) :
    (M.pure a : M α) s = (Except.ok a, s) := rfl

/-- Reduction of `M.throw` at a state. -/
theorem M.throw_apply {α : Type} (e : String) (s : SState) :
    (M.throw e : M α) s = (Except.error e, s) := rfl

/-- Reduction of `M.bind` at a state. -/
theorem M.bindD_apply {α β : Type} (x : M α) (f : α → M β) (s : SState) :
    (M.bind x f) s =
      match x s with
      | (Except.ok a, s') => f a s'
      | (Except.error e, s') => (Except.error e, s') := rfl

/-- `findById` only reads: whatever it returns, the state after the call
differs from the input state by exactly one logged find operation on the
model's own collection. -/
theorem findByIdM_state (env : ServerEnv) (model : RpdDataModel) (i : Value)
    (k : Bool) (s : SState) :
    (findByIdM env model i k s).2 =
      { s with ops := s.ops ++ [StorageOp.findOp model.singularCode] } := by
  simp only [findByIdM, findEntityM, findEntitiesM, collectPropertiesToSelect,
    runRewriter, replaceFiltersWithFiltersOperator, replaceFilterList, replaceOneFilter,
    daFind, expandRelations, M.bind_apply, M.bindD_apply, M.pure_apply, M.pureD_apply,
    Option.getD, pure, Except.pure, Bind.bind, Except.bind]
  cases hif : (List.filter (fun r => matchAllFilters r [EntityFilter.leaf (some "id") LeafOperator.eq i])
      (s.db.collRows model.singularCode)).isEmpty <;>
    simp [hif, M.pureD_apply, M.bindD_apply]

/-- C7: when the structural diff between the loaded current entity and the
supplied partial entity is empty, `updateEntityById` returns the loaded entity
unchanged and issues no storage writes — no `updateById` call and no
link-table statement — and no event: the only state change of the whole call
is the logged read of the lookup, which leaves the database, the events and
the write portion of the operation log untouched. -/
theorem C7_empty_diff_update_is_readonly
    (fuel : Nat) (env : ServerEnv) (model : RpdDataModel) (id : Value)
    (entityToSave : Row) (s : SState) (e : Row)
    (hid : id.truthy = true)
    (hfind : (findByIdM env model id false s).1 = Except.ok (some e))
    (hdiff : getEntityPartChanges e entityToSave = none) :
    updateEntityByIdM fuel env model id entityToSave s =
      (Except.ok e, { s with ops := s.ops ++ [StorageOp.findOp model.singularCode] })
    ∧ ({ s with ops := s.ops ++ [StorageOp.findOp model.singularCode] } : SState).db = s.db
    ∧ ({ s with ops := s.ops ++ [StorageOp.findOp model.singularCode] } : SState).events
        = s.events
    ∧ (s.ops ++ [StorageOp.findOp model.singularCode]).filter StorageOp.isWrite
        = s.ops.filter StorageOp.isWrite := by
  refine ⟨?_, rfl, rfl, by simp [StorageOp.isWrite]⟩
  have hstate := findByIdM_state env model id false s
  rcases hrun : findByIdM env model id false s with ⟨r1, s1⟩
  rw [hrun] at hfind hstate
  simp only at hfind hstate
  subst hfind
  subst hstate
  simp only [updateEntityByIdM, hid, Bool.not_true, Bool.false_eq_true, if_false,
    M.bind_apply, M.bindD_apply, hrun, hdiff, M.pureD_apply]

/-- Witness for C7: updating the fixture entity with its current title again
loads it, diffs to nothing, and only logs the lookup read. -/
theorem C7_witness :
    updateEntityByIdM 5 Fixture.env Fixture.aModel (.vNum 1) [("title", .vStr "t")] Fixture.s0 =
      (Except.ok [("id", .vNum 1), ("title", .vStr "t")],
       { Fixture.s0 with ops := Fixture.s0.ops ++ [StorageOp.findOp "a"] }) :=
  (C7_empty_diff_update_is_readonly 5 Fixture.env Fixture.aModel (.vNum 1)
    [("title", .vStr "t")] Fixture.s0 [("id", .vNum 1), ("title", .vStr "t")]
    (by decide) (by decide) (by decide)).1

/-- C8: `deleteById` on an id with no entity returns without error, issues no
storage delete and emits no event (the only state change is the logged lookup
read); on an existing entity it deletes the row and emits one `entity.delete`
event whose `before` payload is the full prior entity. -/
theorem C8_deleteById_missing_silent_existing_deletes :
    (∀ (env : ServerEnv) (model : RpdDataModel) (id : Value) (s : SState),
      (findByIdM env model id true s).1 = Except.ok none →
      deleteByIdEM env model id s =
        (Except.ok (), { s with ops := s.ops ++ [StorageOp.findOp model.singularCode] })
      ∧ ({ s with ops := s.ops ++ [StorageOp.findOp model.singularCode] } : SState).db = s.db
      ∧ ({ s with ops := s.ops ++ [StorageOp.findOp model.singularCode] } : SState).events
          = s.events
      ∧ (s.ops ++ [StorageOp.findOp model.singularCode]).filter StorageOp.isWrite
          = s.ops.filter StorageOp.isWrite)
  ∧ (∀ (env : ServerEnv) (model : RpdDataModel) (id : Value) (s : SState) (e : Row),
      (findByIdM env model id true s).1 = Except.ok (some e) →
      deleteByIdEM env model id s =
        (Except.ok (),
         { db := { s.db with
             collections := updateAssoc s.db.collections model.singularCode
               ((s.db.collRows model.singularCode).filter (fun r => rowId r != id)) },
           nextId := s.nextId,
           events := s.events ++
             [⟨"entity.delete",
               [("namespace", .vStr model.nspace),
                ("modelSingularCode", .vStr model.singularCode),
                ("before", .vObj e)]⟩],
           ops := s.ops ++ [StorageOp.findOp model.singularCode,
                            StorageOp.deleteOp model.singularCode id] })) := by
  constructor
  · intro env model id s hfind
    refine ⟨?_, rfl, rfl, by simp [StorageOp.isWrite]⟩
    have hstate := findByIdM_state env model id true s
    rcases hrun : findByIdM env model id true s with ⟨r1, s1⟩
    rw [hrun] at hfind hstate
    simp only at hfind hstate
    subst hfind
    subst hstate
    simp only [deleteByIdEM, M.bind_apply, M.bindD_apply, hrun, M.pureD_apply]
  · intro env model id s e hfind
    have hstate := findByIdM_state env model id true s
    rcases hrun : findByIdM env model id true s with ⟨r1, s1⟩
    rw [hrun] at hfind hstate
    simp only at hfind hstate
    subst hfind
    subst hstate
    simp only [deleteByIdEM, M.bind_apply, M.bindD_apply, hrun, M.pureD_apply,
      daDeleteById, emitEvent]
    simp [List.append_assoc]

/-- Witness for C8: deleting the missing id 99 of the fixture database only
logs the lookup; deleting the existing id 1 removes the row and emits the
`entity.delete` event carrying the full prior entity. -/
theorem C8_witness :
    (deleteByIdEM Fixture.env Fixture.aModel (.vNum 99) Fixture.s0 =
      (Except.ok (), { Fixture.s0 with
        ops := Fixture.s0.ops ++ [StorageOp.findOp "a"] }))
    ∧ (deleteByIdEM Fixture.env Fixture.aModel (.vNum 1) Fixture.s0 =
      (Except.ok (),
       { db := { Fixture.s0.db with
           collections := updateAssoc Fixture.s0.db.collections "a"
             ((Fixture.s0.db.collRows "a").filter (fun r => rowId r != Value.vNum 1)) },
         nextId := Fixture.s0.nextId,
         events := Fixture.s0.events ++
           [⟨"entity.delete",
             [("namespace", .vStr "app"),
              ("modelSingularCode", .vStr "a"),
              ("before", .vObj [("id", .vNum 1), ("title", .vStr "t")])]⟩],
         ops := Fixture.s0.ops ++ [StorageOp.findOp "a", StorageOp.deleteOp "a" (.vNum 1)] })) :=
  ⟨(C8_deleteById_missing_silent_existing_deletes.1 Fixture.env Fixture.aModel (.vNum 99)
      Fixture.s0 (by decide)).1,
   C8_deleteById_missing_silent_existing_deletes.2 Fixture.env Fixture.aModel (.vNum 1)
      Fixture.s0 [("id", .vNum 1), ("title", .vStr "t")] (by decide)⟩

/-- C9: during relation expansion in `findEntities`, a link-table relation
property whose target model is not registered is silently skipped — the whole
call behaves exactly as if the relation had not been requested, leaving the
relation key unset on the base rows — whereas for an FK-based many-relation
with an unregistered target the fetch against the target collection is still
issued (a find on the target is logged right after the base find). -/
theorem C9_unregistered_target_link_skips_fk_fetches :
    (∀ (env : ServerEnv) (model : RpdDataModel) (p : RpdDataModelProperty)
       (fl : Option (List EntityFilter)) (k : Bool) (s : SState) (table : String),
      model.properties.find? (fun e => e.code == p.code) = some p →
      isRelationProperty p = true →
      p.linkTableName = some table →
      env.getModel p.targetSingularCode = none →
      findEntitiesM env model
        { filters := fl, properties := some [p.code], keepNonPropertyFields := k } s =
      findEntitiesM env model
        { filters := fl, properties := none, keepNonPropertyFields := k } s)
  ∧ (∀ (env : ServerEnv) (model : RpdDataModel) (p : RpdDataModelProperty)
       (k : Bool) (s : SState) (tc : String),
      model.properties.find? (fun e => e.code == p.code) = some p →
      isRelationProperty p = true →
      p.linkTableName = none →
      p.relation = some "many" →
      p.targetSingularCode = some tc →
      env.getModel p.targetSingularCode = none →
      s.db.collRows model.singularCode ≠ [] →
      ((findEntitiesM env model
          { filters := none, properties := some [p.code], keepNonPropertyFields := k } s).2).ops =
        s.ops ++ [StorageOp.findOp model.singularCode, StorageOp.findOp tc]) := by
  constructor
  · intro env model p fl k s table hfindp hrel hlt hunreg
    have hexp : ∀ (ids : List Value) (entities : List Row),
        expandRelations env model ids [p] entities =
        expandRelations env model ids [] entities := by
      intro ids entities
      simp [expandRelations, hlt, hunreg]
    simp only [findEntitiesM, collectPropertiesToSelect, hfindp, hrel, hlt,
      Option.getD, pure, Except.pure, Bind.bind, Except.bind, Option.some.injEq,
      reduceCtorEq, and_false, if_false, if_true, hexp]
  · intro env model p k s tc hfindp hrel hnl hmany htc hunreg hne
    simp only [findEntitiesM, collectPropertiesToSelect, hfindp, hrel, hnl, hmany,
      Option.getD, pure, Except.pure, Bind.bind, Except.bind, Option.some.injEq,
      reduceCtorEq, and_false, and_true, String.reduceEq, if_false, if_true,
      M.bindD_apply, M.bind_apply, runRewriter, replaceFiltersWithFiltersOperator,
      daFind, matchAllFilters, List.filter_true]
    rcases hcoll : s.db.collRows model.singularCode with _ | ⟨r0, rest0⟩
    · exact absurd hcoll hne
    · simp only [hcoll, List.isEmpty_cons, Bool.false_eq_true, if_false,
        expandRelations, hnl, hmany, ne_eq, reduceCtorEq,
        not_false_eq_true, if_true, findManyRelatedEntitiesViaIdPropertyCode, htc,
        daFind, M.bindD_apply, M.bind_apply, Option.getD]
      simp only [ne_eq, not_true, if_false, Bind.bind, Except.bind, M.bindD_apply,
        M.bind_apply, daFind, M.pureD_apply, Option.getD]
      cases hatt : attachManyNoLink (env.getModel (some tc)) p
          (List.filter
            (fun r => matchAllFilters r
              [EntityFilter.leaf p.selfIdColumnName LeafOperator.opIn
                (Value.vArr (List.map rowId (r0 :: rest0)))])
            (s.db.collRows tc)) (r0 :: rest0) with
      | error e => simp [M.throw_apply, List.append_assoc]
      | ok es => simp [M.pureD_apply, List.append_assoc]

/-- Witness for C9: requesting the link-table relation `ghosts` (target model
unregistered) behaves exactly like not requesting it, while requesting the
FK-based relation `phantoms` (target model unregistered) still logs a find on
the `phantom` collection right after the base find. -/
theorem C9_witness :
    (findEntitiesM Fixture.env Fixture.aModel
        { filters := none, properties := some ["ghosts"], keepNonPropertyFields := false }
        Fixture.s0 =
      findEntitiesM Fixture.env Fixture.aModel
        { filters := none, properties := none, keepNonPropertyFields := false }
        Fixture.s0)
    ∧ ((findEntitiesM Fixture.env Fixture.aModel
        { filters := none, properties := some ["phantoms"], keepNonPropertyFields := false }
        Fixture.s0).2).ops =
      Fixture.s0.ops ++ [StorageOp.findOp "a", StorageOp.findOp "phantom"] :=
  ⟨C9_unregistered_target_link_skips_fk_fetches.1 Fixture.env Fixture.aModel
    Fixture.ghostsProp none false Fixture.s0 "a_ghost_links"
    (by decide) (by decide) (by decide) (by decide),
   C9_unregistered_target_link_skips_fk_fetches.2 Fixture.env Fixture.aModel
    Fixture.phantomsProp false Fixture.s0 "phantom"
    (by decide) (by decide) (by decide) (by decide) (by decide) (by decide) (by decide)⟩

/-- Binding two event-free computations is event-free. -/
theorem preservesEvents_bind {α β : Type} {x : M α} {f : α → M β}
    (hx : x.preservesEvents) (hf : ∀ a, (f a).preservesEvents) :
    (x >>= f).preservesEvents := by
  intro s
  rcases hxs : x s with ⟨r, s1⟩
  have hx' := hx s
  rw [hxs] at hx'
  simp only at hx'
  cases r with
  | error e => simp [M.bind_apply, hxs, hx']
  | ok a =>
    simp only [M.bind_apply, hxs]
    rw [hf a s1, hx']

theorem preservesEvents_pure {α : Type} (a : α) : (M.pure a).preservesEvents :=
  fun _ => rfl

theorem preservesEvents_throw {α : Type} (e : String) :
    (M.throw e : M α).preservesEvents := fun _ => rfl

theorem preservesEvents_purePure {α : Type} (a : α) :
    (Pure.pure a : M α).preservesEvents := fun _ => rfl

theorem preservesEvents_daFind (c : String) (fs : List EntityFilter) :
    (daFind c fs).preservesEvents := fun _ => rfl

theorem preservesEvents_daFindById (c : String) (i : Value) :
    (daFindById c i).preservesEvents := fun _ => rfl

theorem preservesEvents_daCreate (c : String) (r : Row) :
    (daCreate c r).preservesEvents := fun _ => rfl

theorem preservesEvents_daUpdateById (c : String) (i : Value) (p : Row) :
    (daUpdateById c i p).preservesEvents := fun _ => rfl

theorem preservesEvents_insertLink (t sc tc : String) (si ti : Value) :
    (insertLinkIfAbsent t sc tc si ti).preservesEvents := fun _ => rfl

mutual

/-- The recursive create helper emits no events, at any fuel. -/
theorem createEntityM_preservesEvents :
    ∀ (fuel : Nat) (env : ServerEnv) (model : RpdDataModel) (entity : Row),
      (createEntityM fuel env model entity).preservesEvents
  | 0, _, _, _ => preservesEvents_throw _
  | fuel+1, env, model, entity => by
    simp only [createEntityM]
    apply preservesEvents_bind
      (resolveOneRelationsForCreate_preservesEvents fuel env entity _ _)
    intro row
    apply preservesEvents_bind (preservesEvents_daCreate _ _)
    intro newRow
    exact saveManyRelationsForCreate_preservesEvents fuel env entity _ _

/-- The owning-one resolution loop emits no events. -/
theorem resolveOneRelationsForCreate_preservesEvents :
    ∀ (fuel : Nat) (env : ServerEnv) (entity : Row)
      (props : List RpdDataModelProperty) (row : Row),
      (resolveOneRelationsForCreate fuel env entity props row).preservesEvents
  | 0, _, _, _, _ => preservesEvents_throw _
  | _+1, _, _, [], _ => preservesEvents_pure _
  | fuel+1, env, entity, p :: rest, row => by
    simp only [resolveOneRelationsForCreate]
    split
    · split
      · split
        · apply preservesEvents_bind (preservesEvents_throw _)
          intro y
          exact resolveOneRelationsForCreate_preservesEvents fuel env entity rest y
        · apply preservesEvents_bind (createEntityM_preservesEvents fuel env _ _)
          intro newT
          apply preservesEvents_bind (preservesEvents_pure _)
          intro y
          exact resolveOneRelationsForCreate_preservesEvents fuel env entity rest y
      · apply preservesEvents_bind (preservesEvents_pure _)
        intro y
        exact resolveOneRelationsForCreate_preservesEvents fuel env entity rest y
    · apply preservesEvents_bind (preservesEvents_pure _)
      intro y
      exact resolveOneRelationsForCreate_preservesEvents fuel env entity rest y

/-- The many-relation creation loop emits no events. -/
theorem saveManyRelationsForCreate_preservesEvents :
    ∀ (fuel : Nat) (env : ServerEnv) (entity : Row) (newEntity : Row)
      (props : List RpdDataModelProperty),
      (saveManyRelationsForCreate fuel env entity newEntity props).preservesEvents
  | 0, _, _, _, _ => preservesEvents_throw _
  | _+1, _, _, _, [] => preservesEvents_pure _
  | fuel+1, env, entity, newEntity, p :: rest => by
    simp only [saveManyRelationsForCreate]
    split
    · apply preservesEvents_bind (saveManyRelationElements_preservesEvents fuel env p _ _)
      intro saved
      exact saveManyRelationsForCreate_preservesEvents fuel env entity _ rest
    · exact preservesEvents_throw _

/-- The per-element loop emits no events. -/
theorem saveManyRelationElements_preservesEvents :
    ∀ (fuel : Nat) (env : ServerEnv) (p : RpdDataModelProperty) (ownerId : Value)
      (els : List Value),
      (saveManyRelationElements fuel env p ownerId els).preservesEvents
  | 0, _, _, _, _ => preservesEvents_throw _
  | _+1, _, _, _, [] => preservesEvents_pure _
  | fuel+1, env, p, ownerId, el :: rest => by
    simp only [saveManyRelationElements]
    apply preservesEvents_bind (saveManyRelationElement_preservesEvents fuel env p ownerId el)
    intro saved
    apply preservesEvents_bind (saveManyRelationElements_preservesEvents fuel env p ownerId rest)
    intro rest'
    exact preservesEvents_pure _

/-- Saving one element emits no events. -/
theorem saveManyRelationElement_preservesEvents :
    ∀ (fuel : Nat) (env : ServerEnv) (p : RpdDataModelProperty) (ownerId : Value)
      (el : Value),
      (saveManyRelationElement fuel env p ownerId el).preservesEvents
  | 0, _, _, _, _ => preservesEvents_throw _
  | fuel+1, env, p, ownerId, el => by
    simp only [saveManyRelationElement]
    split
    · split
      · exact preservesEvents_throw _
      · apply preservesEvents_bind (createEntityM_preservesEvents fuel env _ _)
        intro newT
        split
        · apply preservesEvents_bind (preservesEvents_insertLink _ _ _ _ _)
          intro u
          exact preservesEvents_pure _
        · apply preservesEvents_bind (preservesEvents_purePure _)
          intro u
          exact preservesEvents_pure _
    · apply preservesEvents_bind (preservesEvents_daFindById _ _)
      intro opt
      split
      · exact preservesEvents_throw _
      · split
        · apply preservesEvents_bind (preservesEvents_insertLink _ _ _ _ _)
          intro _
          exact preservesEvents_pure _
        · apply preservesEvents_bind (preservesEvents_daUpdateById _ _ _)
          intro _
          exact preservesEvents_pure _

end

/-- C10: every successful `EntityManager.createEntity` call emits exactly one
`entity.create` event, for the top-level entity only — the recursive create
helper emits no events for the nested entities it persists, so the event list
grows by exactly that single event however deep the cascade recursed. -/
theorem C10_create_emits_exactly_one_event
    (fuel : Nat) (env : ServerEnv) (model : RpdDataModel) (entity : Row)
    (s : SState) (r : Row) (s' : SState)
    (h : createEntityEM fuel env model entity s = (Except.ok r, s')) :
    s'.events = s.events ++
      [⟨"entity.create",
        [("namespace", .vStr model.nspace),
         ("modelSingularCode", .vStr model.singularCode),
         ("after", .vObj r)]⟩] := by
  have hpe := createEntityM_preservesEvents fuel env model entity s
  rcases hc : createEntityM fuel env model entity s with ⟨rc, sc⟩
  rw [hc] at hpe
  simp only at hpe
  cases rc with
  | error e =>
    rw [createEntityEM] at h
    simp only [M.bind_apply, M.bindD_apply, hc] at h
    rw [Prod.mk.injEq] at h
    exact absurd h.1 (by simp)
  | ok a =>
    rw [createEntityEM] at h
    simp only [M.bind_apply, M.bindD_apply, hc, emitEvent, M.pureD_apply] at h
    rw [Prod.mk.injEq] at h
    obtain ⟨h1, h2⟩ := h
    cases h1
    rw [← h2]
    simp [hpe]

/-- Witness for C10: a create that cascades into a nested create of the
related `b` entity still yields exactly one `entity.create` event. -/
theorem C10_witness :
    ((createEntityEM 5 Fixture.env Fixture.aModel
        [("author", .vObj [("name", .vStr "n")])] Fixture.s0).2).events =
      Fixture.s0.events ++
        [⟨"entity.create",
          [("namespace", .vStr "app"),
           ("modelSingularCode", .vStr "a"),
           ("after", .vObj [("id", .vNum 11)])]⟩] :=
  C10_create_emits_exactly_one_event 5 Fixture.env Fixture.aModel
    [("author", .vObj [("name", .vStr "n")])] Fixture.s0 [("id", .vNum 11)]
    ((createEntityEM 5 Fixture.env Fixture.aModel
        [("author", .vObj [("name", .vStr "n")])] Fixture.s0).2)
    (by decide)

/-- Counterexample for C3 as stated: updating the fixture entity with an
embedded `author` object that has no id does not create any `b` row — the
foreign-key column is written NULL (the literal `id` field of the embedded
object) and the operation log holds no create — whereas `createEntity` with
the same owning-one value does create the `b` row first. The update therefore
does not resolve the value "exactly as in createEntity". -/
theorem C3_counterexample :
    ((updateEntityByIdM 5 Fixture.env Fixture.aModel (.vNum 1)
        [("author", .vObj [("name", .vStr "x")])] Fixture.s0).1 =
      Except.ok [("id", .vNum 1), ("title", .vStr "t"), ("author_id", .vNull)])
    ∧ (((updateEntityByIdM 5 Fixture.env Fixture.aModel (.vNum 1)
        [("author", .vObj [("name", .vStr "x")])] Fixture.s0).2).db.collRows "b" =
      Fixture.s0.db.collRows "b")
    ∧ (((updateEntityByIdM 5 Fixture.env Fixture.aModel (.vNum 1)
        [("author", .vObj [("name", .vStr "x")])] Fixture.s0).2).ops =
      [StorageOp.findOp "a", StorageOp.updateOp "a" (.vNum 1) [("author_id", .vNull)]])
    ∧ (((createEntityM 5 Fixture.env Fixture.aModel
        [("author", .vObj [("name", .vStr "x")])] Fixture.s0).2).ops.filter
          StorageOp.isCreate ≠ []) := by
  refine ⟨by decide, by decide, by decide, by decide⟩

/-- Looking up the key just stored by `updateAssoc` yields the stored value. -/
theorem lookup_updateAssoc_self {α : Type} (l : List (String × α)) (k : String) (v : α) :
    (updateAssoc l k v).lookup k = some v := by
  induction l with
  | nil => simp [updateAssoc, List.lookup]
  | cons hd tl ih =>
    rcases hd with ⟨k', v'⟩
    by_cases h : k' = k
    · subst h
      simp [updateAssoc, List.lookup]
    · have hb : (k == k') = false := beq_eq_false_iff_ne.mpr (Ne.symm h)
      simp [updateAssoc, h, List.lookup, hb, ih]

/-- `updateAssoc` leaves other keys untouched. -/
theorem lookup_updateAssoc_ne {α : Type} (l : List (String × α)) (k k' : String) (v : α)
    (h : k' ≠ k) : (updateAssoc l k v).lookup k' = l.lookup k' := by
  have hb : (k' == k) = false := beq_eq_false_iff_ne.mpr h
  induction l with
  | nil => simp [updateAssoc, List.lookup, hb]
  | cons hd tl ih =>
    rcases hd with ⟨k0, v0⟩
    by_cases h0 : k0 = k
    · subst h0
      simp [updateAssoc, List.lookup, hb]
    · simp [updateAssoc, h0, List.lookup, ih]

/-- Link-table rows after replacing one table in the database. -/
theorem linkRows_updateAssoc (db : Db) (t : String) (rows : List Row) (t' : String) :
    (Db.mk db.collections (updateAssoc db.links t rows)).linkRows t' =
      if t' = t then rows else db.linkRows t' := by
  by_cases h : t' = t
  · subst h
    simp [Db.linkRows, lookup_updateAssoc_self]
  · simp [Db.linkRows, h, lookup_updateAssoc_ne db.links t t' rows h]

/-- The value returned by `findById`, as a function of the model's collection
rows only: the head of the id-filtered, entity-mapped row list. -/
theorem findByIdM_value (env : ServerEnv) (model : RpdDataModel) (i : Value)
    (k : Bool) (s : SState) :
    (findByIdM env model i k s).1 = Except.ok
      (((s.db.collRows model.singularCode).filter
          (fun r => matchAllFilters r [EntityFilter.leaf (some "id") .eq i])).map
        (fun item => mapDbRowToEntityRow model item k)).head? := by
  simp only [findByIdM, findEntityM, findEntitiesM, collectPropertiesToSelect,
    runRewriter, replaceFiltersWithFiltersOperator, replaceFilterList, replaceOneFilter,
    daFind, expandRelations, M.bind_apply, M.bindD_apply, M.pure_apply, M.pureD_apply,
    Option.getD, pure, Except.pure, Bind.bind, Except.bind]
  rcases hcoll : (List.filter (fun r => matchAllFilters r [EntityFilter.leaf (some "id") LeafOperator.eq i])
      (s.db.collRows model.singularCode)) with _ | ⟨r0, rest0⟩
  · simp [M.pureD_apply, M.bindD_apply, M.bind_apply]
  · simp [M.pureD_apply, M.bindD_apply, M.bind_apply, hcoll]

/-- Full effect of one `addRelations` call with a single relation on a
link-table many-relation property: one logged lookup, one guarded pair
insertion, and the `entity.addRelations` event. -/
theorem addRelationsEM_single_run
    (env : ServerEnv) (model : RpdDataModel) (id : Value) (property : String)
    (rel : Value) (s : SState) (p : RpdDataModelProperty)
    (table selfCol targetCol : String) (e : Row)
    (hp : model.properties.find? (fun q => q.code == property) = some p)
    (hrel : isRelationProperty p = true)
    (hmany : p.relation = some "many")
    (hlt : p.linkTableName = some table)
    (hsc : p.selfIdColumnName = some selfCol)
    (htc : p.targetIdColumnName = some targetCol)
    (hfind : (findByIdM env model id false s).1 = Except.ok (some e)) :
    addRelationsEM env model id property [rel] s =
      (Except.ok (),
       { db := { collections := s.db.collections,
                 links := updateAssoc s.db.links table
                   (if (s.db.linkRows table).any (fun l =>
                        sqlEq (Row.get l selfCol) id &&
                        sqlEq (Row.get l targetCol) ((Row.get rel.objFields "id").getD .vNull))
                    then s.db.linkRows table
                    else s.db.linkRows table ++
                      [linkPairRow selfCol targetCol id ((Row.get rel.objFields "id").getD .vNull)]) },
         nextId := s.nextId,
         events := s.events ++
           [⟨"entity.addRelations",
             [("namespace", .vStr model.nspace),
              ("modelSingularCode", .vStr model.singularCode),
              ("entity", .vObj e),
              ("property", .vStr property),
              ("relations", .vArr [rel])]⟩],
         ops := s.ops ++ [StorageOp.findOp model.singularCode,
            StorageOp.linkInsertOp table selfCol targetCol id
              ((Row.get rel.objFields "id").getD .vNull)] }) := by
  have hstate := findByIdM_state env model id false s
  rcases hfb : findByIdM env model id false s with ⟨r0, s1⟩
  rw [hfb] at hfind hstate
  simp only at hfind hstate
  subst hfind
  subst hstate
  simp only [addRelationsEM, M.bind_apply, M.bindD_apply, hfb, hp, hrel, hmany,
    and_self, not_true_eq_false, if_false, hlt, ne_eq, reduceCtorEq, not_false_eq_true,
    if_true, addRelationPairs, insertLinkIfAbsent, hsc, htc, Option.getD,
    emitEvent, M.pureD_apply, linkPairRow]
  simp [Db.linkRows, List.append_assoc]

/-- Full effect of one `removeRelations` call with a single relation on a
link-table many-relation property: one logged lookup, one pair deletion, and
the `entity.removeRelations` event. -/
theorem removeRelationsEM_single_run
    (env : ServerEnv) (model : RpdDataModel) (id : Value) (property : String)
    (rel : Value) (s : SState) (p : RpdDataModelProperty)
    (table selfCol targetCol : String) (e : Row)
    (hp : model.properties.find? (fun q => q.code == property) = some p)
    (hrel : isRelationProperty p = true)
    (hmany : p.relation = some "many")
    (hlt : p.linkTableName = some table)
    (hsc : p.selfIdColumnName = some selfCol)
    (htc : p.targetIdColumnName = some targetCol)
    (hfind : (findByIdM env model id false s).1 = Except.ok (some e)) :
    removeRelationsEM env model id property [rel] s =
      (Except.ok (),
       { db := { collections := s.db.collections,
                 links := updateAssoc s.db.links table
                   ((s.db.linkRows table).filter (fun l =>
                      !(sqlEq (Row.get l selfCol) id &&
                        sqlEq (Row.get l targetCol) ((Row.get rel.objFields "id").getD .vNull)))) },
         nextId := s.nextId,
         events := s.events ++
           [⟨"entity.removeRelations",
             [("namespace", .vStr model.nspace),
              ("modelSingularCode", .vStr model.singularCode),
              ("entity", .vObj e),
              ("property", .vStr property),
              ("relations", .vArr [rel])]⟩],
         ops := s.ops ++ [StorageOp.findOp model.singularCode,
            StorageOp.linkDeletePairOp table selfCol targetCol id
              ((Row.get rel.objFields "id").getD .vNull)] }) := by
  have hstate := findByIdM_state env model id false s
  rcases hfb : findByIdM env model id false s with ⟨r0, s1⟩
  rw [hfb] at hfind hstate
  simp only at hfind hstate
  subst hfind
  subst hstate
  simp only [removeRelationsEM, M.bind_apply, M.bindD_apply, hfb, hp, hrel, hmany,
    and_self, not_true_eq_false, if_false, hlt, ne_eq, reduceCtorEq, not_false_eq_true,
    if_true, removeRelationPairs, deleteLinkPair, hsc, htc, Option.getD,
    emitEvent, M.pureD_apply]
  simp [Db.linkRows, List.append_assoc]

/-- C5: `addRelations` is idempotent — after a first call inserts the missing
`(id, relation.id)` link row, a second identical call leaves the link table
unchanged and exactly one matching row exists — and `removeRelations` on a
pair with no matching link row is a no-op on the database that returns
successfully. -/
theorem C5_addRelations_idempotent_removeRelations_noop :
    (∀ (env : ServerEnv) (model : RpdDataModel) (id : Value) (property : String)
       (rel : Value) (s : SState) (p : RpdDataModelProperty)
       (table selfCol targetCol : String) (e : Row),
      model.properties.find? (fun q => q.code == property) = some p →
      isRelationProperty p = true →
      p.relation = some "many" →
      p.linkTableName = some table →
      p.selfIdColumnName = some selfCol →
      p.targetIdColumnName = some targetCol →
      selfCol ≠ targetCol →
      id ≠ .vNull →
      (Row.get rel.objFields "id").getD .vNull ≠ .vNull →
      (findByIdM env model id false s).1 = Except.ok (some e) →
      (s.db.linkRows table).any (fun l =>
        sqlEq (Row.get l selfCol) id &&
        sqlEq (Row.get l targetCol) ((Row.get rel.objFields "id").getD .vNull)) = false →
      (addRelationsEM env model id property [rel] s).1 = Except.ok ()
      ∧ (addRelationsEM env model id property [rel]
            ((addRelationsEM env model id property [rel] s).2)).1 = Except.ok ()
      ∧ (((addRelationsEM env model id property [rel]
            ((addRelationsEM env model id property [rel] s).2)).2).db.linkRows table =
          (((addRelationsEM env model id property [rel] s).2).db.linkRows table))
      ∧ ((((addRelationsEM env model id property [rel]
            ((addRelationsEM env model id property [rel] s).2)).2).db.linkRows table).countP
          (fun l => sqlEq (Row.get l selfCol) id &&
            sqlEq (Row.get l targetCol) ((Row.get rel.objFields "id").getD .vNull)) = 1))
  ∧ (∀ (env : ServerEnv) (model : RpdDataModel) (id : Value) (property : String)
       (rel : Value) (s : SState) (p : RpdDataModelProperty)
       (table selfCol targetCol : String) (e : Row),
      model.properties.find? (fun q => q.code == property) = some p →
      isRelationProperty p = true →
      p.relation = some "many" →
      p.linkTableName = some table →
      p.selfIdColumnName = some selfCol →
      p.targetIdColumnName = some targetCol →
      (findByIdM env model id false s).1 = Except.ok (some e) →
      (s.db.linkRows table).any (fun l =>
        sqlEq (Row.get l selfCol) id &&
        sqlEq (Row.get l targetCol) ((Row.get rel.objFields "id").getD .vNull)) = false →
      (removeRelationsEM env model id property [rel] s).1 = Except.ok ()
      ∧ (∀ t, ((removeRelationsEM env model id property [rel] s).2).db.linkRows t
            = s.db.linkRows t)
      ∧ ((removeRelationsEM env model id property [rel] s).2).db.collections
            = s.db.collections) := by
  constructor
  · intro env model id property rel s p table selfCol targetCol e
      hp hrel hmany hlt hsc htc hcols hid0 hrelid hfind hnomatch
    have h1 := addRelationsEM_single_run env model id property rel s p
      table selfCol targetCol e hp hrel hmany hlt hsc htc hfind
    rw [hnomatch] at h1
    simp only [Bool.false_eq_true, if_false] at h1
    have hfind2 : (findByIdM env model id false
        ((addRelationsEM env model id property [rel] s).2)).1 = Except.ok (some e) := by
      rw [h1]
      rw [findByIdM_value]
      rw [findByIdM_value] at hfind
      exact hfind
    have h2 := addRelationsEM_single_run env model id property rel
      ((addRelationsEM env model id property [rel] s).2) p
      table selfCol targetCol e hp hrel hmany hlt hsc htc hfind2
    have hrows1 : (((addRelationsEM env model id property [rel] s).2).db).linkRows table =
        s.db.linkRows table ++
          [linkPairRow selfCol targetCol id ((Row.get rel.objFields "id").getD .vNull)] := by
      rw [h1]
      simpa using linkRows_updateAssoc s.db table _ table
    have hpair : (fun l => sqlEq (Row.get l selfCol) id &&
          sqlEq (Row.get l targetCol) ((Row.get rel.objFields "id").getD .vNull))
        (linkPairRow selfCol targetCol id ((Row.get rel.objFields "id").getD .vNull)) = true := by
      simp [linkPairRow, Row.get, hcols, sqlEq, bne, hid0, hrelid]
    have hany2 : ((((addRelationsEM env model id property [rel] s).2).db).linkRows table).any
        (fun l => sqlEq (Row.get l selfCol) id &&
          sqlEq (Row.get l targetCol) ((Row.get rel.objFields "id").getD .vNull)) = true := by
      rw [hrows1]
      simp only [List.any_append, List.any_cons, List.any_nil, hpair, Bool.true_or,
        Bool.or_true]
    rw [hany2] at h2
    simp only [if_true] at h2
    refine ⟨by rw [h1], by rw [h2], ?_, ?_⟩
    · rw [h2, linkRows_updateAssoc, if_pos rfl]
    · rw [h2, linkRows_updateAssoc, if_pos rfl, hrows1, List.countP_append]
      have hzero : (s.db.linkRows table).countP
          (fun l => sqlEq (Row.get l selfCol) id &&
            sqlEq (Row.get l targetCol) ((Row.get rel.objFields "id").getD .vNull)) = 0 := by
        rw [List.countP_eq_zero]
        intro a ha
        have := (List.any_eq_false).mp hnomatch a ha
        simpa using this
      rw [hzero]
      simp [List.countP_cons, hpair]
  · intro env model id property rel s p table selfCol targetCol e
      hp hrel hmany hlt hsc htc hfind hnomatch
    have h1 := removeRelationsEM_single_run env model id property rel s p
      table selfCol targetCol e hp hrel hmany hlt hsc htc hfind
    have hfilter : (s.db.linkRows table).filter (fun l =>
        !(sqlEq (Row.get l selfCol) id &&
          sqlEq (Row.get l targetCol) ((Row.get rel.objFields "id").getD .vNull))) =
        s.db.linkRows table := by
      rw [List.filter_eq_self]
      intro a ha
      have hx := (List.any_eq_false).mp hnomatch a ha
      have hx' : (sqlEq (Row.get a selfCol) id &&
          sqlEq (Row.get a targetCol) ((Row.get rel.objFields "id").getD .vNull)) = false :=
        Bool.eq_false_iff.mpr hx
      rw [hx']
      rfl
    refine ⟨by rw [h1], ?_, by rw [h1]⟩
    intro t
    rw [h1, linkRows_updateAssoc]
    by_cases ht : t = table
    · subst ht
      rw [if_pos rfl, hfilter]
    · rw [if_neg ht]

/-- Witness for C5 on the fixture: adding the `tags` relation pair (1,3) twice
leaves exactly one matching link row, and removing an absent pair succeeds and
changes nothing. -/
theorem C5_witness :
    ((addRelationsEM Fixture.env Fixture.aModel (.vNum 1) "tags"
        [.vObj [("id", .vNum 3)]] Fixture.s0).1 = Except.ok ()
      ∧ (addRelationsEM Fixture.env Fixture.aModel (.vNum 1) "tags"
          [.vObj [("id", .vNum 3)]]
          ((addRelationsEM Fixture.env Fixture.aModel (.vNum 1) "tags"
            [.vObj [("id", .vNum 3)]] Fixture.s0).2)).1 = Except.ok ()
      ∧ (((addRelationsEM Fixture.env Fixture.aModel (.vNum 1) "tags"
            [.vObj [("id", .vNum 3)]]
            ((addRelationsEM Fixture.env Fixture.aModel (.vNum 1) "tags"
              [.vObj [("id", .vNum 3)]] Fixture.s0).2)).2).db.linkRows "a_tag_links" =
          (((addRelationsEM Fixture.env Fixture.aModel (.vNum 1) "tags"
            [.vObj [("id", .vNum 3)]] Fixture.s0).2).db.linkRows "a_tag_links"))
      ∧ ((((addRelationsEM Fixture.env Fixture.aModel (.vNum 1) "tags"
            [.vObj [("id", .vNum 3)]]
            ((addRelationsEM Fixture.env Fixture.aModel (.vNum 1) "tags"
              [.vObj [("id", .vNum 3)]] Fixture.s0).2)).2).db.linkRows "a_tag_links").countP
          (fun l => sqlEq (Row.get l "a_id") (.vNum 1) &&
            sqlEq (Row.get l "tag_id")
              ((Row.get (Value.vObj [("id", .vNum 3)]).objFields "id").getD .vNull)) = 1))
    ∧ ((removeRelationsEM Fixture.env Fixture.aModel (.vNum 1) "tags"
        [.vObj [("id", .vNum 3)]] Fixture.s0).1 = Except.ok ()
      ∧ (∀ t, ((removeRelationsEM Fixture.env Fixture.aModel (.vNum 1) "tags"
          [.vObj [("id", .vNum 3)]] Fixture.s0).2).db.linkRows t = Fixture.s0.db.linkRows t)
      ∧ ((removeRelationsEM Fixture.env Fixture.aModel (.vNum 1) "tags"
          [.vObj [("id", .vNum 3)]] Fixture.s0).2).db.collections
            = Fixture.s0.db.collections) :=
  ⟨C5_addRelations_idempotent_removeRelations_noop.1 Fixture.env Fixture.aModel
    (.vNum 1) "tags" (.vObj [("id", .vNum 3)]) Fixture.s0 Fixture.tagsProp
    "a_tag_links" "a_id" "tag_id" [("id", .vNum 1), ("title", .vStr "t")]
    (by decide) (by decide) (by decide) (by decide) (by decide) (by decide)
    (by decide) (by decide) (by decide) (by decide) (by decide),
   C5_addRelations_idempotent_removeRelations_noop.2 Fixture.env Fixture.aModel
    (.vNum 1) "tags" (.vObj [("id", .vNum 3)]) Fixture.s0 Fixture.tagsProp
    "a_tag_links" "a_id" "tag_id" [("id", .vNum 1), ("title", .vStr "t")]
    (by decide) (by decide) (by decide) (by decide) (by decide) (by decide)
    (by decide) (by decide)⟩

/-- Collection rows after replacing one collection in the database. -/
theorem collRows_updateAssoc (db : Db) (c : String) (rows : List Row) (c' : String) :
    (Db.mk (updateAssoc db.collections c rows) db.links).collRows c' =
      if c' = c then rows else db.collRows c' := by
  by_cases h : c' = c
  · subst h
    simp [Db.collRows, lookup_updateAssoc_self]
  · simp [Db.collRows, h, lookup_updateAssoc_ne db.collections c c' rows h]

/-- Effect of saving one bare-id element of a link-table relation: the target
collection is only read and the guarded pair insertion is applied to the link
table. -/
theorem saveElement_linkTable_run
    (env : ServerEnv) (p : RpdDataModelProperty) (table selfCol targetCol : String)
    (hlt : p.linkTableName = some table)
    (hsc : p.selfIdColumnName = some selfCol)
    (htc : p.targetIdColumnName = some targetCol)
    (fuel : Nat) (ownerId el : Value) (hobj : el.isObject = false)
    (s : SState) (r : Row) (s' : SState)
    (hrun : saveManyRelationElement fuel env p ownerId el s = (Except.ok r, s')) :
    s'.db.collections = s.db.collections
    ∧ ∀ t, s'.db.linkRows t =
        if t = table then
          (if (s.db.linkRows table).any (fun l =>
              sqlEq (Row.get l selfCol) ownerId && sqlEq (Row.get l targetCol) el)
           then s.db.linkRows table
           else s.db.linkRows table ++ [linkPairRow selfCol targetCol ownerId el])
        else s.db.linkRows t := by
  cases fuel with
  | zero =>
    rw [saveManyRelationElement, M.throw_apply, Prod.mk.injEq] at hrun
    exact absurd hrun.1 (by simp)
  | succ fuel =>
    rw [saveManyRelationElement] at hrun
    simp only [hobj, Bool.false_eq_true, false_and, if_false, M.bind_apply,
      M.bindD_apply, daFindById, hlt, hsc, htc, ne_eq, reduceCtorEq,
      not_false_eq_true, if_true, M.throw_apply] at hrun
    rcases hfound : List.find? (fun q => rowId q == el)
        (s.db.collRows (p.targetSingularCode.getD "")) with _ | te
    · simp only [hfound, M.throw_apply] at hrun
      rw [Prod.mk.injEq] at hrun
      exact absurd hrun.1 (by simp)
    · simp only [hfound, M.bind_apply, M.bindD_apply, insertLinkIfAbsent,
        M.pureD_apply, linkPairRow] at hrun
      rw [Prod.mk.injEq] at hrun
      obtain ⟨-, hs2⟩ := hrun
      rw [← hs2]
      refine ⟨rfl, ?_⟩
      intro t
      exact linkRows_updateAssoc s.db table _ t

/-- Effect of the shared element loop on a link-table relation, for bare-id
elements: the target collection is only read and the link table receives the
guarded pair insertions in element order. -/
theorem saveElements_linkTable_run
    (env : ServerEnv) (p : RpdDataModelProperty) (table selfCol targetCol : String)
    (hlt : p.linkTableName = some table)
    (hsc : p.selfIdColumnName = some selfCol)
    (htc : p.targetIdColumnName = some targetCol) :
    ∀ (els : List Value) (fuel : Nat) (ownerId : Value) (s : SState)
      (r : List Row) (s' : SState),
      (∀ el ∈ els, el.isObject = false) →
      saveManyRelationElements fuel env p ownerId els s = (Except.ok r, s') →
      s'.db.collections = s.db.collections
      ∧ ∀ t, s'.db.linkRows t =
          if t = table then
            insertPairs selfCol targetCol ownerId els (s.db.linkRows table)
          else s.db.linkRows t := by
  intro els
  induction els with
  | nil =>
    intro fuel ownerId s r s' hbare hrun
    cases fuel with
    | zero =>
      rw [saveManyRelationElements, M.throw_apply, Prod.mk.injEq] at hrun
      exact absurd hrun.1 (by simp)
    | succ fuel =>
      rw [saveManyRelationElements, M.pureD_apply, Prod.mk.injEq] at hrun
      rw [← hrun.2]
      refine ⟨rfl, ?_⟩
      intro t
      rw [insertPairs]
      by_cases ht : t = table
      · subst ht
        rw [if_pos rfl]
      · rw [if_neg ht]
  | cons el rest ih =>
    intro fuel ownerId s r s' hbare hrun
    have hobj : el.isObject = false := hbare el (by simp)
    cases fuel with
    | zero =>
      rw [saveManyRelationElements, M.throw_apply, Prod.mk.injEq] at hrun
      exact absurd hrun.1 (by simp)
    | succ fuel =>
      rw [saveManyRelationElements] at hrun
      rcases he : saveManyRelationElement fuel env p ownerId el s with ⟨re, se⟩
      simp only [M.bind_apply, M.bindD_apply, he] at hrun
      cases re with
      | error e1 =>
        rw [Prod.mk.injEq] at hrun
        exact absurd hrun.1 (by simp)
      | ok te =>
        rcases hr2 : saveManyRelationElements fuel env p ownerId rest se with ⟨rr, s2⟩
        simp only [hr2] at hrun
        cases rr with
        | error e2 =>
          rw [Prod.mk.injEq] at hrun
          exact absurd hrun.1 (by simp)
        | ok restRows =>
          simp only [M.pureD_apply] at hrun
          rw [Prod.mk.injEq] at hrun
          obtain ⟨-, hs2⟩ := hrun
          have helem := saveElement_linkTable_run env p table selfCol targetCol
            hlt hsc htc fuel ownerId el hobj s te se he
          have hih := ih fuel ownerId se restRows s2
            (fun x hx => hbare x (by simp [hx])) hr2
          rw [← hs2]
          constructor
          · rw [hih.1, helem.1]
          · intro t
            rw [hih.2 t]
            by_cases ht : t = table
            · rw [ht, if_pos rfl, helem.2 table, if_pos rfl]
              conv_rhs => rw [insertPairs]
              rw [if_pos rfl]
            · rw [if_neg ht, if_neg ht, helem.2 t, if_neg ht]

/-- Effect of saving one bare-id element of an FK-based many-relation: the
referenced target row's self-id column is repointed to the owner, and nothing
else in the database changes (in particular no link table is touched). -/
theorem saveElement_fk_run
    (env : ServerEnv) (p : RpdDataModelProperty) (selfCol tc : String)
    (hnl : p.linkTableName = none)
    (hsc : p.selfIdColumnName = some selfCol)
    (htcode : p.targetSingularCode = some tc)
    (fuel : Nat) (ownerId el : Value) (hobj : el.isObject = false)
    (s : SState) (r : Row) (s' : SState)
    (hrun : saveManyRelationElement fuel env p ownerId el s = (Except.ok r, s')) :
    s'.db.links = s.db.links
    ∧ ∀ c, s'.db.collRows c =
        if c = tc then
          (s.db.collRows tc).map (fun q =>
            if rowId q == el then Row.merge q [(selfCol, ownerId)] else q)
        else s.db.collRows c := by
  cases fuel with
  | zero =>
    rw [saveManyRelationElement, M.throw_apply, Prod.mk.injEq] at hrun
    exact absurd hrun.1 (by simp)
  | succ fuel =>
    rw [saveManyRelationElement] at hrun
    simp only [hobj, Bool.false_eq_true, false_and, if_false, M.bind_apply,
      M.bindD_apply, daFindById, hnl, hsc, htcode, Option.getD, ne_eq,
      not_true_eq_false, if_false, M.throw_apply, not_false_eq_true] at hrun
    rcases hfound : List.find? (fun q => rowId q == el) (s.db.collRows tc) with _ | te
    · simp only [hfound, M.throw_apply] at hrun
      rw [Prod.mk.injEq] at hrun
      exact absurd hrun.1 (by simp)
    · have hte : rowId te = el := by
        have := List.find?_some hfound
        exact beq_iff_eq.mp this
      simp only [hfound, M.bind_apply, M.bindD_apply, daUpdateById,
        M.pureD_apply] at hrun
      rw [Prod.mk.injEq] at hrun
      obtain ⟨-, hs2⟩ := hrun
      rw [← hs2]
      refine ⟨rfl, ?_⟩
      intro c
      simp only [hte]
      exact collRows_updateAssoc s.db tc _ c

/-- Effect of the shared element loop on an FK-based many-relation, for
bare-id elements: each referenced target row is repointed in order; link
tables and all other collections are untouched. -/
theorem saveElements_fk_run
    (env : ServerEnv) (p : RpdDataModelProperty) (selfCol tc : String)
    (hnl : p.linkTableName = none)
    (hsc : p.selfIdColumnName = some selfCol)
    (htcode : p.targetSingularCode = some tc) :
    ∀ (els : List Value) (fuel : Nat) (ownerId : Value) (s : SState)
      (r : List Row) (s' : SState),
      (∀ el ∈ els, el.isObject = false) →
      saveManyRelationElements fuel env p ownerId els s = (Except.ok r, s') →
      s'.db.links = s.db.links
      ∧ ∀ c, s'.db.collRows c =
          if c = tc then applyFkLinks selfCol ownerId els (s.db.collRows tc)
          else s.db.collRows c := by
  intro els
  induction els with
  | nil =>
    intro fuel ownerId s r s' hbare hrun
    cases fuel with
    | zero =>
      rw [saveManyRelationElements, M.throw_apply, Prod.mk.injEq] at hrun
      exact absurd hrun.1 (by simp)
    | succ fuel =>
      rw [saveManyRelationElements, M.pureD_apply, Prod.mk.injEq] at hrun
      rw [← hrun.2]
      refine ⟨rfl, ?_⟩
      intro c
      rw [applyFkLinks]
      by_cases hc : c = tc
      · rw [hc, if_pos rfl]
      · rw [if_neg hc]
  | cons el rest ih =>
    intro fuel ownerId s r s' hbare hrun
    have hobj : el.isObject = false := hbare el (by simp)
    cases fuel with
    | zero =>
      rw [saveManyRelationElements, M.throw_apply, Prod.mk.injEq] at hrun
      exact absurd hrun.1 (by simp)
    | succ fuel =>
      rw [saveManyRelationElements] at hrun
      rcases he : saveManyRelationElement fuel env p ownerId el s with ⟨re, se⟩
      simp only [M.bind_apply, M.bindD_apply, he] at hrun
      cases re with
      | error e1 =>
        rw [Prod.mk.injEq] at hrun
        exact absurd hrun.1 (by simp)
      | ok te =>
        rcases hr2 : saveManyRelationElements fuel env p ownerId rest se with ⟨rr, s2⟩
        simp only [hr2] at hrun
        cases rr with
        | error e2 =>
          rw [Prod.mk.injEq] at hrun
          exact absurd hrun.1 (by simp)
        | ok restRows =>
          simp only [M.pureD_apply] at hrun
          rw [Prod.mk.injEq] at hrun
          obtain ⟨-, hs2⟩ := hrun
          have helem := saveElement_fk_run env p selfCol tc hnl hsc htcode
            fuel ownerId el hobj s te se he
          have hih := ih fuel ownerId se restRows s2
            (fun x hx => hbare x (by simp [hx])) hr2
          rw [← hs2]
          constructor
          · rw [hih.1, helem.1]
          · intro c
            rw [hih.2 c]
            by_cases hc : c = tc
            · rw [hc, if_pos rfl, helem.2 tc, if_pos rfl]
              conv_rhs => rw [applyFkLinks]
              rw [if_pos rfl]
            · rw [if_neg hc, if_neg hc, helem.2 c, if_neg hc]

theorem Row.get_set_self (r : Row) (k : String) (v : Value) :
    Row.get (Row.set r k v) k = some v := by
  induction r with
  | nil => simp [Row.set, Row.get]
  | cons hd tl ih =>
    rcases hd with ⟨k', v'⟩
    by_cases h : k' = k
    · simp [Row.set, Row.get, h]
    · simp [Row.set, Row.get, h, ih]

theorem Row.get_set_ne (r : Row) (k k' : String) (v : Value) (h : k ≠ k') :
    Row.get (Row.set r k v) k' = Row.get r k' := by
  induction r with
  | nil => simp [Row.set, Row.get, h]
  | cons hd tl ih =>
    rcases hd with ⟨k0, v0⟩
    by_cases h0 : k0 = k
    · subst h0
      simp [Row.set, Row.get, h]
    · simp [Row.set, Row.get, h0, ih]

theorem Row.set_set_self (r : Row) (k : String) (w v : Value) :
    Row.set (Row.set r k w) k v = Row.set r k v := by
  induction r with
  | nil => simp [Row.set]
  | cons hd tl ih =>
    rcases hd with ⟨k0, v0⟩
    by_cases h0 : k0 = k
    · simp [Row.set, h0]
    · simp [Row.set, h0, ih]

theorem Row.merge_single (r : Row) (k : String) (v : Value) :
    Row.merge r [(k, v)] = Row.set r k v := rfl

theorem rowId_set_ne (r : Row) (k : String) (v : Value) (h : k ≠ "id") :
    rowId (Row.set r k v) = rowId r := by
  rw [rowId, rowId, Row.get_set_ne r k "id" v h]

/-- Pure characterization of the FK-relation replay: each row referenced by an
element has its self-id column set to the owner, every other row is untouched
(so in particular an unreferenced row keeps whatever FK value it had). -/
theorem applyFkLinks_eq_map (selfCol : String) (ownerId : Value) (hid : selfCol ≠ "id") :
    ∀ (els : List Value) (rows : List Row),
      applyFkLinks selfCol ownerId els rows
        = rows.map (fun q =>
            if els.any (fun t => rowId q == t) then Row.merge q [(selfCol, ownerId)] else q) := by
  have hrow : ∀ q : Row, rowId (Row.set q selfCol ownerId) = rowId q :=
    fun q => rowId_set_ne q selfCol ownerId hid
  intro els
  induction els with
  | nil =>
    intro rows
    rw [applyFkLinks]
    simp
  | cons t rest ih =>
    intro rows
    rw [applyFkLinks, ih, List.map_map]
    apply List.map_congr_left
    intro q _
    simp only [Function.comp]
    by_cases hq : (rowId q == t) = true
    · simp only [hq, if_true, List.any_cons, Bool.true_or,
        Row.merge_single, hrow, Row.set_set_self, ite_self]
    · simp [hq, List.any_cons]

theorem Value.beq_comm (a b : Value) : (a == b) = (b == a) := by
  by_cases h : a = b
  · subst h; rfl
  · rw [beq_eq_false_iff_ne.mpr h, beq_eq_false_iff_ne.mpr (Ne.symm h)]

theorem sqlEq_some_self (v : Value) (h : v ≠ Value.vNull) : sqlEq (some v) v = true := by
  simp [sqlEq, h]

theorem sqlEq_some_eq (t u : Value) (ht : t ≠ Value.vNull) (hu : u ≠ Value.vNull) :
    sqlEq (some t) u = (t == u) := by
  by_cases h : t = u
  · subst h
    simp [sqlEq, ht]
  · simp [sqlEq, ht, hu, h]

theorem Row.get_linkPairRow_self (selfCol targetCol : String) (a t : Value) :
    Row.get (linkPairRow selfCol targetCol a t) selfCol = some a := by
  simp [linkPairRow, Row.get]

theorem Row.get_linkPairRow_target (selfCol targetCol : String) (a t : Value)
    (h : selfCol ≠ targetCol) :
    Row.get (linkPairRow selfCol targetCol a t) targetCol = some t := by
  simp [linkPairRow, Row.get, h]

theorem contains_append_singleton (seen : List Value) (t u : Value) :
    (seen ++ [t]).contains u = (seen.contains u || (t == u)) := by
  induction seen with
  | nil =>
    show (u == t || List.contains [] u) = (List.contains [] u || (t == u))
    simp [Value.beq_comm u t]
  | cons a seen ih =>
    show (u == a || (seen ++ [t]).contains u) = ((u == a || seen.contains u) || (t == u))
    rw [ih, Bool.or_assoc]

/-- Pure characterization of a run of guarded link-pair insertions: when the
owner id and the target ids are non-null and the base rows realize exactly the
pairs of `seen`, the run appends one link row per first occurrence of an unseen
target id, in element order. -/
theorem insertPairs_spec (selfCol targetCol : String) (ownerId : Value)
    (hcols : selfCol ≠ targetCol) (hown : ownerId ≠ Value.vNull) :
    ∀ (tids : List Value) (seen : List Value) (rows : List Row),
      (∀ t ∈ tids, t ≠ Value.vNull) →
      (∀ t : Value, t ≠ Value.vNull →
        (rows.any (fun l =>
          sqlEq (Row.get l selfCol) ownerId && sqlEq (Row.get l targetCol) t))
          = seen.contains t) →
      insertPairs selfCol targetCol ownerId tids rows
        = rows ++ (newTargets seen tids).map (linkPairRow selfCol targetCol ownerId) := by
  intro tids
  induction tids with
  | nil =>
    intro seen rows _ _
    rw [insertPairs, newTargets]
    simp
  | cons t rest ih =>
    intro seen rows hnn hinv
    have htn : t ≠ Value.vNull := hnn t (by simp)
    have hpres := hinv t htn
    rw [insertPairs, newTargets]
    simp only [hpres]
    by_cases hseen : seen.contains t = true
    · rw [hseen]
      simp only [if_true]
      exact ih seen rows (fun x hx => hnn x (by simp [hx])) hinv
    · have hseen' : seen.contains t = false := Bool.eq_false_iff.mpr hseen
      rw [hseen']
      simp only [Bool.false_eq_true, if_false]
      rw [ih (seen ++ [t]) (rows ++ [linkPairRow selfCol targetCol ownerId t])
        (fun x hx => hnn x (by simp [hx])) ?_]
      · rw [List.map_cons, List.append_assoc, List.singleton_append]
      · intro u hu
        rw [List.any_append, hinv u hu, contains_append_singleton]
        have hone : List.any [linkPairRow selfCol targetCol ownerId t]
            (fun l => sqlEq (Row.get l selfCol) ownerId && sqlEq (Row.get l targetCol) u)
            = (t == u) := by
          rw [List.any_cons, List.any_nil, Bool.or_false,
            Row.get_linkPairRow_self, Row.get_linkPairRow_target selfCol targetCol ownerId t hcols,
            sqlEq_some_self ownerId hown, sqlEq_some_eq t u htn hu, Bool.true_and]
        rw [hone]

/-- Reduction of the full-replace deletion followed by a continuation. -/
theorem deleteLinksWhereSelf_bind {β : Type} (table selfCol : String) (i : Value)
    (k : PUnit → M β) (s : SState) :
    (deleteLinksWhereSelf table selfCol i >>= k) s =
      k PUnit.unit
        { s with
          db := Db.mk s.db.collections
            (updateAssoc s.db.links table
              ((s.db.linkRows table).filter (fun l => !sqlEq (Row.get l selfCol) i))),
          ops := s.ops ++ [StorageOp.linkDeleteAllOp table selfCol i] } := rfl

/-- C4: in `updateEntityById`, a changed many-relation field is replayed as
follows. Link-table relation, any element set: the run equals deleting every
link row whose self-id column is the owner id and then running the very
per-element save loop the create path runs (full replace: delete before
reinsert); for element sets of bare target ids the final link table is exactly
the owner-free remainder plus one pair per first occurrence of a new target id.
FK-based relation, any element set: the run equals that same create-side loop
on the untouched state — nothing is cleared first — and for bare-id element
sets the target collection is mapped pointwise: referenced rows are repointed
to the owner and every other row, including rows whose FK already pointed at
this owner, is left exactly as it was. -/
theorem C4_update_link_table_full_replace_fk_no_unlink
    (env : ServerEnv) (p : RpdDataModelProperty)
    (table selfCol targetCol tc : String)
    (fuel : Nat) (id : Value) (els : List Value) (changes ent : Row)
    (s : SState) (r : Row) (s' : SState)
    (hchg : Row.get changes p.code = some (Value.vArr els)) :
    (p.linkTableName = some table →
     p.selfIdColumnName = some selfCol →
     (updateManyRelations fuel env changes id ent [p] s
        = (saveManyRelationElements fuel env p id els >>= fun saved =>
            M.pure (Row.set ent p.code (Value.vArr (saved.map Value.vObj))))
            ((deleteLinksWhereSelf table selfCol id s).2)
      ∧ ((deleteLinksWhereSelf table selfCol id s).2).db.collections = s.db.collections
      ∧ ∀ t, ((deleteLinksWhereSelf table selfCol id s).2).db.linkRows t
          = if t = table
            then (s.db.linkRows table).filter (fun l => !sqlEq (Row.get l selfCol) id)
            else s.db.linkRows t))
    ∧ (p.linkTableName = none →
       updateManyRelations fuel env changes id ent [p] s
         = (saveManyRelationElements fuel env p id els >>= fun saved =>
             M.pure (Row.set ent p.code (Value.vArr (saved.map Value.vObj)))) s)
    ∧ (p.linkTableName = some table →
       p.selfIdColumnName = some selfCol →
       p.targetIdColumnName = some targetCol →
       selfCol ≠ targetCol →
       id ≠ Value.vNull →
       (∀ t ∈ els, t ≠ Value.vNull) →
       (∀ el ∈ els, el.isObject = false) →
       updateManyRelations fuel env changes id ent [p] s = (Except.ok r, s') →
       s'.db.collections = s.db.collections
       ∧ s'.db.linkRows table =
           ((s.db.linkRows table).filter (fun l => !sqlEq (Row.get l selfCol) id))
             ++ (newTargets [] els).map (linkPairRow selfCol targetCol id))
    ∧ (p.linkTableName = none →
       p.selfIdColumnName = some selfCol →
       p.targetSingularCode = some tc →
       selfCol ≠ "id" →
       (∀ el ∈ els, el.isObject = false) →
       updateManyRelations fuel env changes id ent [p] s = (Except.ok r, s') →
       s'.db.links = s.db.links
       ∧ s'.db.collRows tc =
           (s.db.collRows tc).map (fun q =>
             if els.any (fun t => rowId q == t) then Row.merge q [(selfCol, id)]
             else q)) := by
  refine ⟨?_, ?_, ?_, ?_⟩
  · intro hlt hsc
    refine ⟨?_, rfl, ?_⟩
    · rw [updateManyRelations]
      simp only [hchg, Option.getD, hlt, hsc, ne_eq, reduceCtorEq,
        not_false_eq_true, if_true]
      rfl
    · intro t
      exact linkRows_updateAssoc s.db table _ t
  · intro hnl
    rw [updateManyRelations]
    simp only [hchg, Option.getD, hnl, ne_eq, not_true_eq_false, if_false]
    rfl
  · intro hlt hsc htc hcols hid0 hels hbare hrun
    rw [updateManyRelations] at hrun
    simp only [hchg, Option.getD, hlt, hsc, htc, ne_eq, reduceCtorEq,
      not_false_eq_true, if_true] at hrun
    rw [deleteLinksWhereSelf_bind] at hrun
    rcases hsave : saveManyRelationElements fuel env p id els
        { s with
          db := Db.mk s.db.collections
            (updateAssoc s.db.links table
              ((s.db.linkRows table).filter (fun l => !sqlEq (Row.get l selfCol) id))),
          ops := s.ops ++ [StorageOp.linkDeleteAllOp table selfCol id] }
      with ⟨rs, s1⟩
    simp only [M.bind_apply, M.bindD_apply, hsave] at hrun
    cases rs with
    | error e =>
      rw [Prod.mk.injEq] at hrun
      exact absurd hrun.1 (by simp)
    | ok savedRows =>
      simp only [updateManyRelations, M.pureD_apply] at hrun
      rw [Prod.mk.injEq] at hrun
      obtain ⟨-, hs1⟩ := hrun
      have hfx := saveElements_linkTable_run env p table selfCol targetCol hlt hsc htc
        els fuel id _ savedRows s1 hbare hsave
      rw [← hs1]
      constructor
      · exact hfx.1.trans rfl
      · rw [hfx.2 table, if_pos rfl]
        rw [linkRows_updateAssoc s.db table _ table, if_pos rfl]
        have hbase : ∀ u : Value, u ≠ Value.vNull →
            (((s.db.linkRows table).filter (fun l => !sqlEq (Row.get l selfCol) id)).any
              (fun l => sqlEq (Row.get l selfCol) id && sqlEq (Row.get l targetCol) u))
              = List.contains [] u := by
          intro u _
          have h0 : (((s.db.linkRows table).filter (fun l => !sqlEq (Row.get l selfCol) id)).any
              (fun l => sqlEq (Row.get l selfCol) id && sqlEq (Row.get l targetCol) u))
              = false := by
            rw [List.any_eq_false]
            intro l hl
            have hf := (List.mem_filter.mp hl).2
            have hfe : sqlEq (Row.get l selfCol) id = false := by
              simpa using hf
            simp [hfe]
          exact h0.trans rfl
        exact insertPairs_spec selfCol targetCol id hcols hid0 els []
          ((s.db.linkRows table).filter (fun l => !sqlEq (Row.get l selfCol) id))
          hels hbase
  · intro hnl hsc htcode hidcol hbare hrun
    rw [updateManyRelations] at hrun
    simp only [hchg, Option.getD, hnl, ne_eq, not_true_eq_false, if_false,
      M.bind_apply, M.bindD_apply, M.pure_apply] at hrun
    rcases hsave : saveManyRelationElements fuel env p id els s with ⟨rs, s1⟩
    simp only [hsave] at hrun
    cases rs with
    | error e =>
      rw [Prod.mk.injEq] at hrun
      exact absurd hrun.1 (by simp)
    | ok savedRows =>
      simp only [updateManyRelations, M.pureD_apply] at hrun
      rw [Prod.mk.injEq] at hrun
      obtain ⟨-, hs1⟩ := hrun
      have hfx := saveElements_fk_run env p selfCol tc hnl hsc htcode
        els fuel id s savedRows s1 hbare hsave
      rw [← hs1]
      refine ⟨hfx.1, ?_⟩
      rw [hfx.2 tc, if_pos rfl]
      exact applyFkLinks_eq_map selfCol id hidcol els (s.db.collRows tc)

/-- Witness for C4: over the fixture, replaying `tags := [3]` for owner 1
deletes owner 1's stale link and appends the `(1, 3)` pair; replaying
`items := [2]` repoints the referenced `b` row and leaves the unreferenced
`b` row — which already pointed at owner 1 — untouched; and replaying an
embedded `items` object without an id equals running the create-side element
loop (which creates the `b` row) on the untouched state. -/
theorem C4_witness :
    ((updateManyRelations 9 Fixture.env [("tags", Value.vArr [Value.vNum 3])]
        (Value.vNum 1) [] [Fixture.tagsProp] Fixture.s4a).2.db.linkRows "a_tag_links"
      = ((Fixture.s4a.db.linkRows "a_tag_links").filter
          (fun l => !sqlEq (Row.get l "a_id") (Value.vNum 1)))
        ++ (newTargets [] [Value.vNum 3]).map (linkPairRow "a_id" "tag_id" (Value.vNum 1)))
    ∧ ((updateManyRelations 9 Fixture.env [("items", Value.vArr [Value.vNum 2])]
        (Value.vNum 1) [] [Fixture.itemsProp] Fixture.s4b).2.db.collRows "b"
      = (Fixture.s4b.db.collRows "b").map (fun q =>
          if [Value.vNum 2].any (fun t => rowId q == t)
          then Row.merge q [("a_id", Value.vNum 1)] else q))
    ∧ (updateManyRelations 9 Fixture.env
        [("items", Value.vArr [Value.vObj [("name", Value.vStr "z")]])]
        (Value.vNum 1) [] [Fixture.itemsProp] Fixture.s4b
      = (saveManyRelationElements 9 Fixture.env Fixture.itemsProp (Value.vNum 1)
          [Value.vObj [("name", Value.vStr "z")]] >>= fun saved =>
          M.pure (Row.set [] Fixture.itemsProp.code
            (Value.vArr (saved.map Value.vObj)))) Fixture.s4b) := by
  refine ⟨?_, ?_, ?_⟩
  · exact ((C4_update_link_table_full_replace_fk_no_unlink Fixture.env Fixture.tagsProp
      "a_tag_links" "a_id" "tag_id" "tag" 9 (Value.vNum 1) [Value.vNum 3]
      [("tags", Value.vArr [Value.vNum 3])] [] Fixture.s4a
      (((updateManyRelations 9 Fixture.env [("tags", Value.vArr [Value.vNum 3])]
          (Value.vNum 1) [] [Fixture.tagsProp] Fixture.s4a).1).toOption.getD [])
      ((updateManyRelations 9 Fixture.env [("tags", Value.vArr [Value.vNum 3])]
          (Value.vNum 1) [] [Fixture.tagsProp] Fixture.s4a).2)
      (by decide)).2.2.1
      rfl rfl rfl (by decide) (by decide) (by decide) (by decide) (by decide)).2
  · exact ((C4_update_link_table_full_replace_fk_no_unlink Fixture.env Fixture.itemsProp
      "" "a_id" "" "b" 9 (Value.vNum 1) [Value.vNum 2]
      [("items", Value.vArr [Value.vNum 2])] [] Fixture.s4b
      (((updateManyRelations 9 Fixture.env [("items", Value.vArr [Value.vNum 2])]
          (Value.vNum 1) [] [Fixture.itemsProp] Fixture.s4b).1).toOption.getD [])
      ((updateManyRelations 9 Fixture.env [("items", Value.vArr [Value.vNum 2])]
          (Value.vNum 1) [] [Fixture.itemsProp] Fixture.s4b).2)
      (by decide)).2.2.2
      rfl rfl rfl (by decide) (by decide) (by decide)).2
  · exact (C4_update_link_table_full_replace_fk_no_unlink Fixture.env Fixture.itemsProp
      "" "a_id" "" "b" 9 (Value.vNum 1) [Value.vObj [("name", Value.vStr "z")]]
      [("items", Value.vArr [Value.vObj [("name", Value.vStr "z")]])] [] Fixture.s4b
      [] Fixture.s4b
      (by decide)).2.1 rfl

/-- The owning-one pass leaves a column alone when no processed property
targets it. -/
theorem applyOneRelationChanges_get_of_notMem (changes : Row) :
    ∀ (props : List RpdDataModelProperty) (row : Row) (col : String),
      (∀ q ∈ props, q.targetIdColumnName.getD "" ≠ col) →
      Row.get (applyOneRelationChanges changes props row) col = Row.get row col := by
  intro props
  induction props with
  | nil => intro row col _; rfl
  | cons q rest ih =>
    intro row col h
    have hq : q.targetIdColumnName.getD "" ≠ col := h q (by simp)
    simp only [applyOneRelationChanges]
    rw [ih _ col (fun x hx => h x (by simp [hx]))]
    by_cases hobj : ((Row.get changes q.code).getD .vNull).isObject = true
    · rw [if_pos hobj, Row.get_set_ne _ _ _ _ hq]
    · rw [if_neg hobj, Row.get_set_ne _ _ _ _ hq]

/-- The owning-one pass writes, for every processed property with a distinct
target column, exactly the embedded object's literal `id` field (NULL when
absent) or the bare changed value into that property's foreign-key column. -/
theorem applyOneRelationChanges_get_of_mem (changes : Row) :
    ∀ (props : List RpdDataModelProperty) (row : Row) (p : RpdDataModelProperty),
      props.Pairwise (fun a b => a.targetIdColumnName.getD "" ≠ b.targetIdColumnName.getD "") →
      p ∈ props →
      Row.get (applyOneRelationChanges changes props row) (p.targetIdColumnName.getD "")
        = some (if ((Row.get changes p.code).getD .vNull).isObject
                then (Row.get ((Row.get changes p.code).getD .vNull).objFields "id").getD .vNull
                else (Row.get changes p.code).getD .vNull) := by
  intro props
  induction props with
  | nil => intro row p _ hmem; exact absurd hmem (List.not_mem_nil p)
  | cons q rest ih =>
    intro row p hpw hmem
    rcases List.mem_cons.mp hmem with heq | hmem2
    · subst heq
      simp only [applyOneRelationChanges]
      rw [applyOneRelationChanges_get_of_notMem changes rest _ _
        (fun x hx => Ne.symm ((List.pairwise_cons.mp hpw).1 x hx))]
      by_cases hobj : ((Row.get changes p.code).getD .vNull).isObject = true
      · rw [if_pos hobj, if_pos hobj, Row.get_set_self]
      · rw [if_neg hobj, if_neg hobj, Row.get_set_self]
    · simp only [applyOneRelationChanges]
      exact ih _ p (List.pairwise_cons.mp hpw).2 hmem2

/-- C3 (amended): in `updateEntityById` a changed owning-one relation value is
not resolved as in `createEntity`: for every changed owning-one property (with
its own target column) the embedded object's literal `id` field (NULL when
absent) or the bare changed value is written directly to that foreign-key
column, the single logged update carries exactly that computed partial row,
and no recursive create is performed — a successful update whose change set
contains no many-relation property issues no create operation at all. -/
theorem C3_update_writes_literal_id_never_creates
    (fuel : Nat) (env : ServerEnv) (model : RpdDataModel) (id : Value)
    (entityToSave : Row) (s : SState) (e : Row) (s1 : SState) (changes : Row)
    (r : Row) (s' : SState)
    (hid : id.truthy = true)
    (hfind : findByIdM env model id false s = (Except.ok (some e), s1))
    (hch : getEntityPartChanges e entityToSave = some changes)
    (hmany : (relationPropertiesOf model changes).2 = [])
    (hrun : updateEntityByIdM fuel env model id entityToSave s = (Except.ok r, s')) :
    (∀ (props : List RpdDataModelProperty) (row : Row) (p : RpdDataModelProperty),
      props.Pairwise (fun a b => a.targetIdColumnName.getD "" ≠ b.targetIdColumnName.getD "") →
      p ∈ props →
      Row.get (applyOneRelationChanges changes props row) (p.targetIdColumnName.getD "")
        = some (if ((Row.get changes p.code).getD .vNull).isObject
                then (Row.get ((Row.get changes p.code).getD .vNull).objFields "id").getD .vNull
                else (Row.get changes p.code).getD .vNull))
    ∧ s'.ops = s1.ops ++
        (if (applyOneRelationChanges changes (relationPropertiesOf model changes).1
              (mapEntityToDbRow model changes)).isEmpty
         then []
         else [StorageOp.updateOp model.singularCode id
                (applyOneRelationChanges changes (relationPropertiesOf model changes).1
                  (mapEntityToDbRow model changes))])
    ∧ s'.ops.filter StorageOp.isCreate = s.ops.filter StorageOp.isCreate := by
  refine ⟨fun props row p hpw hmem =>
      applyOneRelationChanges_get_of_mem changes props row p hpw hmem, ?_⟩
  have hstate := findByIdM_state env model id false s
  rw [hfind] at hstate
  simp only at hstate
  subst hstate
  rw [updateEntityByIdM] at hrun
  simp only [hid, Bool.not_true, Bool.false_eq_true, if_false, M.bind_apply,
    M.bindD_apply, hfind, hch, hmany, updateManyRelations, M.pureD_apply,
    emitEvent] at hrun
  split at hrun
  · rename_i hemp
    rw [Prod.mk.injEq] at hrun
    rw [← hrun.2]
    constructor
    · simp [hemp, M.bind_apply, M.bindD_apply, M.pureD_apply, M.pure_apply,
        emitEvent]
    · simp [M.bind_apply, M.bindD_apply, M.pureD_apply, M.pure_apply,
        emitEvent, StorageOp.isCreate, List.filter_append]
  · rename_i hemp
    rw [Prod.mk.injEq] at hrun
    rw [← hrun.2]
    constructor
    · simp [hemp, daUpdateById, M.bind_apply, M.bindD_apply, M.pureD_apply,
        M.pure_apply, emitEvent]
    · simp [daUpdateById, M.bind_apply, M.bindD_apply, M.pureD_apply,
        M.pure_apply, emitEvent, StorageOp.isCreate, List.filter_append]

/-- Witness for the amended C3: the one-relation pass at the concrete change
set writes NULL (the missing literal id of the embedded object) to
`author_id`, the concrete update run logs exactly the find and that single
update operation, and the create portion of its operation log stays empty. -/
theorem C3_witness :
    (Row.get (applyOneRelationChanges [("author", Value.vObj [("name", Value.vStr "x")])]
        [Fixture.authorProp] []) "author_id" = some Value.vNull)
    ∧ ((updateEntityByIdM 5 Fixture.env Fixture.aModel (.vNum 1)
        [("author", .vObj [("name", .vStr "x")])] Fixture.s0).2).ops =
      [StorageOp.findOp "a", StorageOp.updateOp "a" (.vNum 1) [("author_id", .vNull)]]
    ∧ ((updateEntityByIdM 5 Fixture.env Fixture.aModel (.vNum 1)
        [("author", .vObj [("name", .vStr "x")])] Fixture.s0).2).ops.filter
      StorageOp.isCreate = Fixture.s0.ops.filter StorageOp.isCreate := by
  have T := C3_update_writes_literal_id_never_creates 5 Fixture.env Fixture.aModel (.vNum 1)
    [("author", .vObj [("name", .vStr "x")])] Fixture.s0
    [("id", .vNum 1), ("title", .vStr "t")]
    { Fixture.s0 with ops := Fixture.s0.ops ++ [StorageOp.findOp "a"] }
    [("author", .vObj [("name", .vStr "x")])]
    [("id", .vNum 1), ("title", .vStr "t"), ("author_id", .vNull)]
    ((updateEntityByIdM 5 Fixture.env Fixture.aModel (.vNum 1)
        [("author", .vObj [("name", .vStr "x")])] Fixture.s0).2)
    (by decide) (by decide) (by decide) (by decide) (by decide)
  exact ⟨(T.1 [Fixture.authorProp] [] Fixture.authorProp (by simp) (by simp)).trans (by decide),
         T.2.1.trans (by decide), T.2.2⟩
